import Mathlib

/-!
Verification development for the ETL-Portal execution engine.

This file gives a shallow embedding, in Lean 4, of the core ETL execution
engine of the repository (backend/app/services/etl_service.py,
backend/app/services/transformation_service.py and the job-creation
validation in backend/app/api/v1/endpoints/etl_jobs.py), and proves or
refutes the frozen specification claims about it.

Modelling conventions:
  * pandas cell values are modelled by the inductive type `Value`
    (null covers both `None`, `NaN` and `NaT`); numeric values are
    idealised as integers (`Int`), since no settled claim depends on
    fractional values, and Python floats have no kernel-level semantics;
  * a pandas `Series` is a dtype tag together with a list of values,
    a `DataFrame` is an ordered association list of named series;
  * database side effects (`conn.execute`, `conn.executemany`) are made
    observable as a trace of `Event`s; whether an individual SQL statement
    succeeds is decided by an oracle (`SqlOracle.sqlFail`) standing for the
    external database;
  * Python iterates sets (e.g. `for col in missing_columns`) in an order
    that depends on the process hash seed; that order is supplied by the
    oracle (`SqlOracle.setOrder`), so theorems can quantify over every
    order the interpreter may choose;
  * persisted `JobRun` updates (`_update_job_run` followed by `commit`)
    appear in the trace as `Event.runUpdate` carrying exactly the keyword
    arguments passed at the corresponding call site.
-/

/-- Run states of a `JobRun` (models `RunStatus` in app/models/job_run.py). -/
inductive RunStatus where
  | pending
  | running
  | completed
  | failed
  | cancelled
  | paused
deriving DecidableEq, Repr

/-- A single pandas cell value.  `null` stands for Python `None`, `NaN` and
`NaT` alike; numbers are idealised as integers; `time` is a calendar date
(year, month, day) standing for a pandas timestamp. -/
inductive Value where
  | null
  | text (s : String)
  | num (n : Int)
  | boolean (b : Bool)
  | time (y m d : Nat)
deriving DecidableEq, Repr

/-- pandas dtype tags relevant to the engine. -/
inductive Dtype where
  | object
  | int64
  | float64
  | boolT
  | datetime
deriving DecidableEq, Repr

/-- A pandas Series: a dtype together with the column's values. -/
structure Series where
  dtype : Dtype
  values : List Value
deriving DecidableEq, Repr

/-- A pandas DataFrame: an ordered association list of named columns. -/
structure DataFrame where
  cols : List (String × Series)
deriving DecidableEq, Repr

/-- Column names of a DataFrame, in order (models `list(df.columns)`). -/
def DataFrame.columns (df : DataFrame) : List String :=
  df.cols.map Prod.fst

/-- Look a column up by name (models `df[col]` read access). -/
def DataFrame.get? (df : DataFrame) (c : String) : Option Series :=
  df.cols.lookup c

/-- Column assignment `df[c] = s`: replaces the column in place when it
exists, otherwise appends it at the end (pandas semantics). -/
def DataFrame.set (df : DataFrame) (c : String) (s : Series) : DataFrame :=
  if (df.cols.map Prod.fst).contains c then
    ⟨df.cols.map (fun p => if p.1 = c then (c, s) else p)⟩
  else
    ⟨df.cols ++ [(c, s)]⟩

/-- Number of rows, `len(df)`: the length of the first column (0 for a
DataFrame with no columns). -/
def DataFrame.nRows (df : DataFrame) : Nat :=
  match df.cols with
  | [] => 0
  | (_, s) :: _ => s.values.length

/-- A constant column of the given length (models broadcasting a scalar
into a DataFrame column). -/
def constSeries (d : Dtype) (v : Value) (n : Nat) : Series :=
  ⟨d, List.replicate n v⟩

/-! ## transformation_service.py -/

/-- Equality of `Except` results (needed to evaluate theorems on concrete
inputs; Lean core ships no such instance). -/
instance {ε α : Type} [DecidableEq ε] [DecidableEq α] :
    DecidableEq (Except ε α) := fun x y =>
  match x, y with
  | .ok a, .ok b =>
    if h : a = b then isTrue (by rw [h])
    else isFalse (fun hh => by cases hh; exact h rfl)
  | .error a, .error b =>
    if h : a = b then isTrue (by rw [h])
    else isFalse (fun hh => by cases hh; exact h rfl)
  | .ok _, .error _ => isFalse (fun hh => Except.noConfusion hh)
  | .error _, .ok _ => isFalse (fun hh => Except.noConfusion hh)

/-- Python `str.upper()` (character-wise; avoids the non-reducing
`String.toUpper`). -/
def toUpperStr (s : String) : String :=
  ⟨s.toList.map Char.toUpper⟩

/-- Python `str.lower()`. -/
def toLowerStr (s : String) : String :=
  ⟨s.toList.map Char.toLower⟩

/-- Decimal digits to a number; `none` on a non-digit. -/
def digitsToNatAux : List Char → Nat → Option Nat
  | [], acc => some acc
  | c :: cs, acc =>
    if c.isDigit then digitsToNatAux cs (acc * 10 + (c.toNat - 48))
    else none

/-- Parse a non-empty all-digit character list. -/
def digitsToNat : List Char → Option Nat
  | [] => none
  | c :: cs => digitsToNatAux (c :: cs) 0

/-- Parse a (possibly negative) decimal integer, as `int(s)` does. -/
def parseIntStr (s : String) : Option Int :=
  match s.toList with
  | '-' :: rest => (digitsToNat rest).map (fun n => -(n : Int))
  | l => (digitsToNat l).map (fun n => (n : Int))

/-- Split a character list on a separator character (models
`str.split(sep)` for a single-character separator). -/
def splitOnChar (sep : Char) : List Char → List (List Char)
  | [] => [[]]
  | c :: rest =>
    if c = sep then [] :: splitOnChar sep rest
    else
      match splitOnChar sep rest with
      | g :: gs => (c :: g) :: gs
      | [] => [[c]]

/-- Join strings with a separator (models `sep.join(parts)`). -/
def joinWith (sep : String) : List String → String
  | [] => ""
  | [x] => x
  | x :: xs => x ++ sep ++ joinWith sep xs

/-- Element-wise pandas `.str` accessor behaviour: string cells are mapped
through `f`, every non-string cell (including null) becomes null. -/
def strOpValue (f : String → String) : Value → Value
  | .text s => .text (f s)
  | _ => .null

/-- A `.str` transformation guarded by `x.dtype == 'object'`: on an object
series it maps string cells through `f`, otherwise it is the identity. -/
def applyStrOp (f : String → String) (s : Series) : Series :=
  if s.dtype = .object then
    ⟨.object, s.values.map (strOpValue f)⟩
  else s

/-- Leading-whitespace strip (models `str.lstrip`). -/
def lstripStr (s : String) : String :=
  ⟨s.toList.dropWhile Char.isWhitespace⟩

/-- Trailing-whitespace strip (models `str.rstrip`). -/
def rstripStr (s : String) : String :=
  ⟨(s.toList.reverse.dropWhile Char.isWhitespace).reverse⟩

/-- Python `str.capitalize`: first character upper-cased, rest lower-cased. -/
def capitalizeStr (s : String) : String :=
  match s.toList with
  | [] => ""
  | c :: rest => ⟨c.toUpper :: (rest.map Char.toLower)⟩

/-- Simple title-casing: capitalize each space-separated word (models
`str.title` up to its finer word-boundary rules, which no claim uses). -/
def titleStr (s : String) : String :=
  joinWith " " ((splitOnChar ' ' s.toList).map (fun g => capitalizeStr ⟨g⟩))

/-- String reversal (models `x.str[::-1]`). -/
def reverseStr (s : String) : String :=
  ⟨s.toList.reverse⟩

/-- Best-effort date parse, `pd.to_datetime(_, errors='coerce')` on one
cell: existing timestamps survive, `"y-m-d"` strings parse, everything
else coerces to null (NaT). -/
def toDatetimeValue : Value → Value
  | .time y m d => .time y m d
  | .text s =>
    match (splitOnChar '-' s.toList).map digitsToNat with
    | [some y, some m, some d] => .time y m d
    | _ => .null
  | _ => .null

/-- `pd.to_datetime(series, errors='coerce')`. -/
def toDatetimeSeries (s : Series) : Series :=
  ⟨.datetime, s.values.map toDatetimeValue⟩

/-- Extract one datetime field after a coercing parse (models the
`EXTRACT_YEAR` / `EXTRACT_MONTH` / `EXTRACT_DAY` lambdas). -/
def extractDateField (f : Nat → Nat → Nat → Nat) (s : Series) : Series :=
  ⟨.float64, s.values.map (fun v =>
    match toDatetimeValue v with
    | .time y m d => .num (f y m d)
    | _ => .null)⟩

/-- Is this a numeric dtype (`pd.api.types.is_numeric_dtype`)? -/
def Dtype.isNumeric : Dtype → Bool
  | .int64 => true
  | .float64 => true
  | _ => false

/-- The transformation registry `TransformationService.TRANSFORMATIONS`,
keyed by the exact transformation names of the source.  `TODAY` / `NOW`
return the current time; since the engine assigns their result into a
DataFrame column, they are modelled as broadcasting the scalar `now` over
the series. -/
def transformRegistry (now : Value) : List (String × (Series → Series)) :=
  [ ("UPPER", applyStrOp String.toUpper)
  , ("LOWER", applyStrOp String.toLower)
  , ("TRIM", applyStrOp (fun s => lstripStr (rstripStr s)))
  , ("LTRIM", applyStrOp lstripStr)
  , ("RTRIM", applyStrOp rstripStr)
  , ("REMOVE_SPACES", applyStrOp (fun s => ⟨s.toList.filter (fun c => c ≠ ' ')⟩))
  , ("CAPITALIZE", applyStrOp capitalizeStr)
  , ("TITLE", applyStrOp titleStr)
  , ("REVERSE", applyStrOp reverseStr)
  , ("LENGTH", fun s =>
      if s.dtype = .object then
        ⟨.float64, s.values.map (fun v =>
          match v with
          | .text t => .num t.length
          | _ => .null)⟩
      else s)
  , ("EXTRACT_YEAR", extractDateField (fun y _ _ => y))
  , ("EXTRACT_MONTH", extractDateField (fun _ m _ => m))
  , ("EXTRACT_DAY", extractDateField (fun _ _ d => d))
  , ("TODAY", fun s => ⟨.datetime, s.values.map (fun _ => now)⟩)
  , ("NOW", fun s => ⟨.datetime, s.values.map (fun _ => now)⟩)
  , ("ABS", fun s =>
      if s.dtype.isNumeric then
        ⟨s.dtype, s.values.map (fun v =>
          match v with
          | .num n => .num n.natAbs
          | w => w)⟩
      else s)
  , ("FLOOR", fun s => s)
  , ("CEILING", fun s => s)
  , ("FILL_NULL", fun s =>
      ⟨s.dtype, s.values.map (fun v => if v = .null then .text "" else v)⟩)
  , ("FILL_ZERO", fun s =>
      ⟨s.dtype, s.values.map (fun v => if v = .null then .num 0 else v)⟩)
  ]

/-- Fatal errors of the transform stage (`apply_transformations` in
etl_service.py raises exactly in these situations). -/
inductive TransformErr where
  | sourceColumnMissing (col : String)
  | unknownTransformation (name : String)
deriving DecidableEq, Repr

/-- `TransformationService.apply_transformation`: the empty and `'none'`
names are identity, unknown names raise, otherwise the registry function is
applied.  (`FLOOR` / `CEILING` are the identity on integer-valued numeric
columns, which is what the `Value.num` idealisation carries.) -/
def applyTransformationSvc (now : Value) (series : Series) (t : String) :
    Except TransformErr Series :=
  if t = "" ∨ t = "none" then .ok series
  else
    match (transformRegistry now).lookup t with
    | none => .error (.unknownTransformation t)
    | some f => .ok (f series)

/-- `TransformationService.apply_transformations`: fold the named
transformations over the series in list order, propagating the first
error.  (The deprecated single-string form accepted by the caller applies
`apply_transformation` once, i.e. behaves as a one-element list.) -/
def applyTransformationsSvc (now : Value) (series : Series) :
    List String → Except TransformErr Series
  | [] => .ok series
  | t :: ts =>
    match applyTransformationSvc now series t with
    | .error e => .error e
    | .ok s2 => applyTransformationsSvc now s2 ts

/-- The `type_mapping` dict of `convert_data_type`, verbatim. -/
def typeMapping : List (String × String) :=
  [ ("TEXT", "object")
  , ("VARCHAR", "object")
  , ("CHAR", "object")
  , ("INTEGER", "Int64")
  , ("BIGINT", "Int64")
  , ("SMALLINT", "Int64")
  , ("NUMERIC", "float64")
  , ("DECIMAL", "float64")
  , ("FLOAT", "float64")
  , ("DOUBLE", "float64")
  , ("BOOLEAN", "bool")
  , ("TIMESTAMP", "datetime64[ns]")
  , ("DATE", "datetime64[ns]")
  , ("DATETIME", "datetime64[ns]")
  ]

/-- Python truthiness of a cell, as used by `astype(bool)` on an object
series (note: pandas treats NaN as truthy). -/
def valueTruthy : Value → Bool
  | .null => true
  | .text s => s ≠ ""
  | .num n => n ≠ 0
  | .boolean b => b
  | .time _ _ _ => true

/-- `series.astype('bool')`. -/
def astypeBool (s : Series) : Series :=
  ⟨.boolT, s.values.map (fun v => .boolean (valueTruthy v))⟩

/-- One cell of `series.astype('Int64')` / `astype('float64')`: nulls stay
null (nullable dtypes), numbers pass through, booleans widen, and strings
must parse as a number or the whole conversion raises. -/
def astypeNumValue : Value → Except String Value
  | .null => .ok .null
  | .num n => .ok (.num n)
  | .boolean b => .ok (.num (if b then 1 else 0))
  | .text s =>
    match parseIntStr s with
    | some n => .ok (.num n)
    | none => .error ("invalid literal: " ++ s)
  | .time _ _ _ => .error "cannot convert datetime to numeric"

/-- Traverse a value list through a fallible element conversion. -/
def mapValuesE (f : Value → Except String Value) :
    List Value → Except String (List Value)
  | [] => .ok []
  | v :: vs =>
    match f v with
    | .error e => .error e
    | .ok w =>
      match mapValuesE f vs with
      | .error e => .error e
      | .ok ws => .ok (w :: ws)

/-- `series.astype(pandas_type)` for the dtype strings `convert_data_type`
reaches through its `else` branch (`'object'`, `'Int64'`, `'float64'`).
`astype('object')` keeps the cell values and only retags the dtype. -/
def astypeSeries (s : Series) (pandasType : String) : Except String Series :=
  if pandasType = "object" then .ok ⟨.object, s.values⟩
  else if pandasType = "Int64" then
    match mapValuesE astypeNumValue s.values with
    | .error e => .error e
    | .ok vs => .ok ⟨.int64, vs⟩
  else
    match mapValuesE astypeNumValue s.values with
    | .error e => .error e
    | .ok vs => .ok ⟨.float64, vs⟩

/-- `TransformationService.convert_data_type`: the target SQL type is
upper-cased and looked up in `type_mapping`; an unmapped type logs a
warning and returns the series unchanged; datetime targets coerce (never
raising), `BOOLEAN` uses truthiness, and the remaining targets go through
`astype`, whose failure is re-raised as a `ValueError` naming the target
type. -/
def convertDataType (series : Series) (targetType : String) :
    Except String Series :=
  match typeMapping.lookup (toUpperStr targetType) with
  | none => .ok series
  | some pandasType =>
    if pandasType = "datetime64[ns]" then .ok (toDatetimeSeries series)
    else if pandasType = "bool" then .ok (astypeBool series)
    else
      match astypeSeries series pandasType with
      | .error e =>
        .error ("Failed to convert column to " ++ targetType ++ ": " ++ e)
      | .ok s2 => .ok s2

/-! ## Column mappings and the Transform Engine (etl_service.apply_transformations) -/

/-- A `ColumnMapping` ORM row (app/models/column_mapping.py).  `sourceColumn`
and `destDataType` are non-null strings in the schema; Python truthiness
treats the empty string as "absent".  The deprecated single-string form of
`transformations` behaves as a one-element list. -/
structure ColumnMappingM where
  sourceColumn : String
  sourceDataType : String
  destColumn : String
  destDataType : String
  transformations : List String
  isNullable : Bool
  defaultValue : Option String
  exclude : Bool
  columnOrder : Int
  isPrimaryKey : Bool
  isCalculated : Bool
  calculationExpression : Option String
deriving DecidableEq, Repr

/-- Python truthiness of the optional `default_value` field. -/
def defaultValueTruthy (m : ColumnMappingM) : Bool :=
  match m.defaultValue with
  | none => false
  | some d => d ≠ ""

/-- `series.fillna(mapping.default_value)`, applied only when a default is
configured and the mapping is not nullable (etl_service.py lines 329-330). -/
def applyDefaultFill (m : ColumnMappingM) (s : Series) : Series :=
  if defaultValueTruthy m ∧ ¬ m.isNullable then
    ⟨s.dtype, s.values.map (fun v =>
      if v = .null then .text (m.defaultValue.getD "") else v)⟩
  else s

/-- One iteration of the mapping loop in `apply_transformations`
(etl_service.py lines 264-333).  Returns `none` when the mapping
contributes no destination column (excluded, or no source column — the
"table-only" skip), otherwise the produced column together with the
warnings recorded along the way (a failed type coercion degrades to a
warning and keeps the pre-coercion series). -/
def processMapping (now : Value) (df : DataFrame) (m : ColumnMappingM) :
    Except TransformErr (Option (String × Series) × List String) :=
  if m.exclude then .ok (none, [])
  else if m.sourceColumn = "" then .ok (none, [])
  else
    match df.get? m.sourceColumn with
    | none => .error (.sourceColumnMissing m.sourceColumn)
    | some series0 =>
      match applyTransformationsSvc now series0 m.transformations with
      | .error e => .error e
      | .ok series1 =>
        let step2 : Series × List String :=
          if m.destDataType ≠ "" then
            match convertDataType series1 m.destDataType with
            | .ok s2 => (s2, [])
            | .error msg => (series1, [msg])
          else (series1, [])
        .ok (some (m.destColumn, applyDefaultFill m step2.1), step2.2)

/-- The mapping loop: builds the destination DataFrame column by column,
accumulating warnings. -/
def applyTransformGo (now : Value) (df : DataFrame) :
    DataFrame → List String → List ColumnMappingM →
    Except TransformErr (DataFrame × List String)
  | acc, warns, [] => .ok (acc, warns)
  | acc, warns, m :: rest =>
    match processMapping now df m with
    | .error e => .error e
    | .ok (none, w) => applyTransformGo now df acc (warns ++ w) rest
    | .ok (some (c, s), w) =>
      applyTransformGo now df (acc.set c s) (warns ++ w) rest

/-- `ETLService.apply_transformations`: the mappings argument is the result
of the `ORDER BY column_order` query; with no mappings the source DataFrame
is returned unchanged, otherwise a fresh DataFrame is assembled from the
processed mappings. -/
def applyTransformationsM (now : Value) (df : DataFrame)
    (mappings : List ColumnMappingM) :
    Except TransformErr (DataFrame × List String) :=
  if mappings.isEmpty then .ok (df, [])
  else applyTransformGo now df ⟨[]⟩ [] mappings

/-! ## The Batch Loader and Schema Reconciler (etl_service._write_to_postgresql) -/

/-- The `$i` placeholder clauses of the upsert VALUES list: timestamp
columns are wrapped in `COALESCE($i, CURRENT_TIMESTAMP)`. -/
inductive ValuesClause where
  | coalesceNow (i : Nat)
  | param (i : Nat)
deriving DecidableEq, Repr

/-- One assignment of the `DO UPDATE SET` list: either
`"col" = CURRENT_TIMESTAMP` or `"col" = EXCLUDED."col"`. -/
inductive SetClause where
  | setNow (col : String)
  | setExcluded (col : String)
deriving DecidableEq, Repr

/-- Column a SET clause assigns to. -/
def SetClause.col : SetClause → String
  | .setNow c => c
  | .setExcluded c => c

/-- Shape of the ON CONFLICT action of the generated upsert statement:
an update gated by an `IS DISTINCT FROM` WHERE clause over `whereCols`,
an unconditional update, or `DO NOTHING`. -/
inductive ConflictAction where
  | updateGated (sets : List SetClause) (whereCols : List String)
  | updateAll (sets : List SetClause)
  | doNothing
deriving DecidableEq, Repr

/-- Does the conflict action carry a WHERE gate? -/
def ConflictAction.isGated : ConflictAction → Bool
  | .updateGated _ _ => true
  | _ => false

/-- SET clauses of the conflict action. -/
def ConflictAction.setClauses : ConflictAction → List SetClause
  | .updateGated s _ => s
  | .updateAll s => s
  | .doNothing => []

/-- The structured content of the generated upsert statement. -/
structure UpsertQueryM where
  insertColumns : List String
  valuesClauses : List ValuesClause
  conflictKeys : List String
  action : ConflictAction
deriving DecidableEq, Repr

/-- VALUES clauses (etl_service.py lines 821-829): `created_at` /
`updated_at` positions become `COALESCE($i, CURRENT_TIMESTAMP)`. -/
def upsertValuesClauses (columns : List String) : List ValuesClause :=
  columns.enum.map (fun p =>
    if p.2 = "created_at" ∨ p.2 = "updated_at" then .coalesceNow (p.1 + 1)
    else .param (p.1 + 1))

/-- `update_columns` (lines 833-836): insert columns minus the upsert keys
and minus `created_at`. -/
def updateColumnsFor (columns keys : List String) : List String :=
  columns.filter (fun c => ¬ keys.contains c ∧ c ≠ "created_at")

/-- `comparison_columns` (lines 852-855): update columns minus the
timestamp columns and the upsert keys. -/
def comparisonColumnsFor (columns keys : List String) : List String :=
  (updateColumnsFor columns keys).filter (fun c =>
    c ≠ "updated_at" ∧ c ≠ "created_at" ∧ ¬ keys.contains c)

/-- The upsert statement builder (etl_service.py lines 817-887), as the
structured query `UpsertQueryM`: SET assigns `CURRENT_TIMESTAMP` to
`updated_at` and `EXCLUDED."col"` elsewhere; with a non-empty SET list the
update is gated by a WHERE over `comparison_columns` when that list is
non-empty and unconditional otherwise; with an empty SET list the conflict
action is DO NOTHING. -/
def upsertSetClauses (columns keys : List String) : List SetClause :=
  (updateColumnsFor columns keys).map (fun c =>
    if c = "updated_at" then SetClause.setNow c else SetClause.setExcluded c)

/-- The full structured upsert statement (see `upsertSetClauses`). -/
def buildUpsertQuery (columns keys : List String) : UpsertQueryM :=
  let sets := upsertSetClauses columns keys
  let action :=
    if sets ≠ [] then
      let cmp := comparisonColumnsFor columns keys
      if cmp ≠ [] then ConflictAction.updateGated sets cmp
      else ConflictAction.updateAll sets
    else ConflictAction.doNothing
  { insertColumns := columns
  , valuesClauses := upsertValuesClauses columns
  , conflictKeys := keys
  , action := action }

/-- SQL `a IS DISTINCT FROM b` on cell values: null versus null is NOT
distinct; null versus a value is; two values compare by equality. -/
def isDistinctFrom (a b : Value) : Bool :=
  a ≠ b

/-- Row-level evaluation of the generated WHERE gate: the update fires iff
some comparison column of the existing row is distinct from the incoming
(EXCLUDED) value. -/
def updateFires (whereCols : List String)
    (existingRow incomingRow : String → Value) : Bool :=
  whereCols.any (fun c => isDistinctFrom (existingRow c) (incomingRow c))

/-- The DML statement submitted for one slice: a plain multi-row insert or
the structured upsert. -/
inductive DmlQuery where
  | insert (cols : List String)
  | upsert (q : UpsertQueryM)
deriving DecidableEq, Repr

/-- An executed SQL statement, as an observable effect. -/
inductive SqlEffect where
  | createSchema (name : String)
  | createTable (ddl : String)
  | dropTable (schName tbl : String)
  | truncateTable (schName tbl : String)
  | addColumn (schName tbl col typ : String)
  | dropConstraint (schName tbl cname : String)
  | addPrimaryKey (schName tbl : String) (cols : List String)
  | dml (sliceIndex : Nat) (query : DmlQuery) (rowCount : Nat)
deriving DecidableEq, Repr

/-- Is the effect a batch DML submission? -/
def SqlEffect.isDml : SqlEffect → Bool
  | .dml _ _ _ => true
  | _ => false

/-- Is the effect a destructive or structural schema change? -/
def SqlEffect.isSchemaChange : SqlEffect → Bool
  | .createTable _ => true
  | .dropTable _ _ => true
  | .truncateTable _ _ => true
  | .addColumn _ _ _ _ => true
  | .dropConstraint _ _ _ => true
  | .addPrimaryKey _ _ _ => true
  | _ => false

/-- The keyword arguments of one `_update_job_run(...)` call (only fields
the engine ever passes); `none` means the field was not passed and keeps
its previous value. -/
structure RunFields where
  status : Option RunStatus := none
  rowsTotal : Option Nat := none
  rowsProcessed : Option Nat := none
  rowsFailed : Option Nat := none
  errorCount : Option Nat := none
  progress : Option Nat := none
  message : Option String := none
  errorMessage : Option String := none
deriving DecidableEq, Repr

/-- One observable step of a run: an executed SQL statement against the
destination, or a persisted `JobRun` update (update followed by commit). -/
inductive Event where
  | sql (e : SqlEffect)
  | runUpdate (u : RunFields)
deriving DecidableEq, Repr

/-- Errors raised by the engine (each constructor corresponds to one
`raise` site in etl_service.py and carries the data its message names). -/
inductive EtlErr where
  | invalidDestConfig
  | credentialNotFound
  | createTableFailed (schName tbl msg : String)
  | noDdl (schName tbl : String)
  | schemaMismatchNoDdl (expected existing : List String)
  | addColumnFailed (col schName tbl msg : String)
  | schemaMismatchUpsert (schName tbl : String)
      (existing expected : List String)
  | addPrimaryKeyFailed (keys : List String) (msg : String)
  | missingUpsertConstraint (schName tbl : String)
      (keys pkCols : List String)
  | dmlFailed (msg : String)
  | sqlError (msg : String)
deriving DecidableEq, Repr

/-- The external database: `sqlFail e = some msg` means the statement `e`
raises with message `msg`, `none` means it succeeds.  `setOrder` is the
iteration order the Python interpreter chooses for a set of strings (hash
dependent); faithful instances enumerate each list's elements exactly
(a permutation). -/
structure SqlOracle where
  sqlFail : SqlEffect → Option String
  setOrder : List String → List String

/-- The auto-generated audit timestamp columns excluded from every schema
comparison (etl_service.py line 469). -/
def autoGenColumns : List String :=
  ["created_at", "updated_at", "inserted_date", "modified_date"]

/-- Python `set(xs) == set(ys)` on string lists. -/
def listSetEq (xs ys : List String) : Bool :=
  xs.all (ys.contains ·) ∧ ys.all (xs.contains ·)

/-- Audit-filtered column list used by every schema comparison. -/
def cmpColumns (cols : List String) : List String :=
  cols.filter (fun c => ¬ autoGenColumns.contains c)

/-- `missing_columns` of the insert/upsert reconciliation (as a list in
expected-column order; emptiness agrees with the Python set). -/
def missingCols (expected existing : List String) : List String :=
  expected.filter (fun c => ¬ existing.contains c)

/-- `extra_columns` of the insert/upsert reconciliation. -/
def extraCols (expected existing : List String) : List String :=
  existing.filter (fun c => ¬ expected.contains c)

/-- `column_type_map` (lines 563-567): a dict from destination column to
declared destination type over the non-excluded mappings; Python dict
comprehension keeps the LAST occurrence of a key, hence the reversal. -/
def columnTypeMap (ms : List ColumnMappingM) : List (String × String) :=
  ((ms.filter (fun m => ¬ m.exclude)).map
    (fun m => (m.destColumn, m.destDataType))).reverse

/-- The auto-add loop for missing columns under the insert strategy
(lines 570-578): each column is added by one ALTER using its mapped type
(default `TEXT`); a rejected ALTER is re-raised as an error naming the
column, aborting the loop. -/
def autoAddColumns (oracle : SqlOracle) (schName tbl : String)
    (typeMap : List (String × String)) :
    List String → List Event × Option EtlErr
  | [] => ([], none)
  | c :: rest =>
    let typ := (typeMap.lookup c).getD "TEXT"
    let eff := SqlEffect.addColumn schName tbl c typ
    match oracle.sqlFail eff with
    | some msg => ([.sql eff], some (.addColumnFailed c schName tbl msg))
    | none =>
      let res := autoAddColumns oracle schName tbl typeMap rest
      (.sql eff :: res.1, res.2)

/-- Rows of the slice starting at index `start`:
`min(start + batch_size, total) - start`. -/
def sliceSizeAt (total bs start : Nat) : Nat :=
  min (start + bs) total - start

/-- Rows of slice number `j` (slices start at `j * batch_size`). -/
def sliceSize (total bs j : Nat) : Nat :=
  sliceSizeAt total bs (j * bs)

/-- Number of slices produced by `range(0, total, bs)`. -/
def numSlices (total bs : Nat) : Nat :=
  (total + bs - 1) / bs

/-- The progress message persisted after each successful slice. -/
def processedMsg (rp total : Nat) : String :=
  s!"Processed {rp}/{total} rows"

/-- The exact floor `⌊rp · 100 / total⌋` — the value the spec's formula
`floor(rowsProcessed / rowsTotal * 100)` prescribes under exact
arithmetic.  The program instead evaluates `int((rp / total) * 100)` in
binary64 floats (`progressPctFloat`), which falls below this floor at
e.g. `rp = 29, total = 100`. -/
def progressPct (rp total : Nat) : Nat :=
  rp * 100 / total

/-- Fuel-driven bit length: for `n ≤ fuel`, `bitLenAux fuel n` is the
number of binary digits of `n` (Python's `n.bit_length()`).  Structural in
the fuel so that it kernel-reduces on concrete inputs. -/
def bitLenAux : Nat → Nat → Nat
  | 0, _ => 0
  | fuel + 1, n => if n = 0 then 0 else bitLenAux fuel (n / 2) + 1

/-- Number of binary digits: `2^(bitLen n - 1) ≤ n < 2^(bitLen n)` for
positive `n`, and `bitLen 0 = 0`. -/
def bitLen (n : Nat) : Nat := bitLenAux n n

/-- Round-to-nearest, ties-to-even, of the ratio `a / b` to an integer —
the rounding applied at every IEEE-754 binary64 operation. -/
def rne (a b : Nat) : Nat :=
  let q := a / b
  let r := a % b
  if 2 * r < b then q
  else if b < 2 * r then q + 1
  else if q % 2 = 0 then q else q + 1

/-- `⌊log₂ (num / den)⌋` for positive naturals, via the bit lengths and a
single comparison. -/
def floorLog2Q (num den : Nat) : Int :=
  if bitLen den ≤ bitLen num then
    let dn := bitLen num - bitLen den
    if den * 2 ^ dn ≤ num then (dn : Int) else (dn : Int) - 1
  else
    let dd := bitLen den - bitLen num
    if den ≤ num * 2 ^ dd then -(dd : Int) else -(dd : Int) - 1

/-- The ratio `num / den` rescaled by `2^(52 - ⌊log₂⌋)` into `[2^52, 2^53)`,
as a numerator/denominator pair (the scaling multiplies whichever side
keeps both components natural). -/
def sigPair (num den : Nat) : Nat × Nat :=
  let t : Int := 52 - floorLog2Q num den
  if 0 ≤ t then (num * 2 ^ t.toNat, den) else (num, den * 2 ^ (-t).toNat)

/-- The 53-bit significand of the binary64 value nearest to `num / den`:
round-to-nearest-even of the rescaled ratio.  Lies in `[2^52, 2^53]`; the
top value `2^53` is renormalised by `roundQ`. -/
def mSig (num den : Nat) : Nat :=
  rne (sigPair num den).1 (sigPair num den).2

/-- The binary64 double nearest to `num / den` (ties to even) for positive
operands, as a dyadic pair `(m, e)` of value `m · 2^e` with
`2^52 ≤ m < 2^53`.  Exponent-range effects (overflow, subnormals) never
bind for the ratios the engine computes, so they are not modelled. -/
def roundQ (num den : Nat) : Nat × Int :=
  let k := floorLog2Q num den
  let m := mSig num den
  if m = 2 ^ 53 then (2 ^ 52, k - 51) else (m, k - 52)

/-- Binary64 multiplication of a double by the exact integer 100 (the
`* 100` of etl_service.py line 900): the 100-fold significand is rounded
back to 53 significant bits; the power-of-two part of the scaling is
exact. -/
def floatMul100 (d : Nat × Int) : Nat × Int :=
  let r := roundQ (d.1 * 100) 1
  (r.1, r.2 + d.2)

/-- Python's `int()` on a non-negative double: truncation toward zero. -/
def floatTruncNat (d : Nat × Int) : Nat :=
  if 0 ≤ d.2 then d.1 * 2 ^ d.2.toNat else d.1 / 2 ^ (-d.2).toNat

/-- `int((rp / total) * 100)` exactly as binary64 arithmetic evaluates it
(etl_service.py line 900): correctly-rounded true division of the two
integers (CPython's int/int division is correctly rounded for arbitrary
operands), exact conversion of 100, correctly-rounded product, truncation
toward zero.  E.g. `progressPctFloat 29 100 = 28`: the double nearest
`29/100` is slightly below `0.29` and the product rounds to
`28.999999999999996`, one below the exact floor `29`. -/
def progressPctFloat (rp total : Nat) : Nat :=
  if rp = 0 then 0 else floatTruncNat (floatMul100 (roundQ rp total))

/-- The rational value of a dyadic pair (proof-side only). -/
def valQ (d : Nat × Int) : ℚ := (d.1 : ℚ) * 2 ^ d.2

/-- The slice loop (etl_service.py lines 804-932), by remaining slice
count: submits one bulk DML per slice; on success accumulates
`rows_processed` and persists a progress update before the next slice; on
the first failure counts the whole slice in `rows_failed`, persists the
failure counts, and re-raises.  Returns the events, the final
`rows_processed` and `rows_failed`, and the error if any. -/
def writeSlicesAux (q : DmlQuery) (oracle : SqlOracle) (total bs : Nat) :
    Nat → Nat → Nat → Nat → List Event × Nat × Nat × Option EtlErr
  | 0, _, rp, rf => ([], rp, rf, none)
  | n + 1, i, rp, rf =>
    let size := sliceSize total bs i
    let eff := SqlEffect.dml i q size
    match oracle.sqlFail eff with
    | some msg =>
      ([.sql eff, .runUpdate { rowsFailed := some (rf + size)
                             , errorCount := some (rf + size) }],
       rp, rf + size, some (.dmlFailed msg))
    | none =>
      let rp2 := rp + size
      let upd := Event.runUpdate
        { rowsProcessed := some rp2
        , progress := some (progressPctFloat rp2 total)
        , message := some (processedMsg rp2 total) }
      let res := writeSlicesAux q oracle total bs n (i + 1) rp2 rf
      (.sql eff :: upd :: res.1, res.2)

/-- The whole batch loop over `range(0, total_rows, batch_size)`. -/
def writeSlices (q : DmlQuery) (oracle : SqlOracle) (total bs : Nat) :
    List Event × Nat × Nat × Option EtlErr :=
  writeSlicesAux q oracle total bs (numSlices total bs) 0 0 0

/-- The destination configuration dictionary fields the writer reads. -/
structure DestConfig where
  credentialId : Option Nat
  schemaOpt : Option String
  table : Option String
deriving DecidableEq, Repr

/-- An `ETLJob` ORM row, restricted to the fields the execution engine
reads. -/
structure ETLJobM where
  loadStrategy : String
  upsertKeys : List String
  batchSize : Nat
  createNewTable : Bool
  newTableDdl : Option String
  columnMappings : List ColumnMappingM
  destinationType : String
  destConfig : DestConfig
deriving Repr

/-- Python truthiness of `job.new_table_ddl`. -/
def ddlTruthy (job : ETLJobM) : Bool :=
  match job.newTableDdl with
  | none => false
  | some d => d ≠ ""

/-- The check `if not credential_id or not table` (line 378): both must be
present and truthy (0 and "" are falsy). -/
def destConfigOk (c : DestConfig) : Bool :=
  (match c.credentialId with
   | none => false
   | some n => n ≠ 0) &&
  (match c.table with
   | none => false
   | some t => t ≠ "")

/-- Point-in-time destination state read through information_schema, plus
the lookups of the constraint-provisioning section.  `initialTable` is the
table's column list (name, udt type) in ordinal order, `none` when the
table does not exist; `ddlColumns` are the columns `new_table_ddl` would
create. -/
structure DestSnapshot where
  credentialFound : Bool
  initialTable : Option (List (String × String))
  ddlColumns : List (String × String)
  constraintOnKeys : Bool
  existingPk : Option String
deriving Repr

/-- Substring test over character lists. -/
def charsContain (hay needle : List Char) : Bool :=
  hay.tails.any (fun t => needle.isPrefixOf t)

/-- The inline DDL repair of lines 419-436: when the lower-cased DDL
contains `" number "`, every standalone word `number` (any case) is
replaced by `NUMERIC`.  (The source uses a `\b`-delimited regex; words are
approximated by space-splitting, which agrees on the guarded inputs.) -/
def fixNumberDdl (ddl : String) : String :=
  if charsContain (toLowerStr ddl).toList " number ".toList then
    joinWith " " ((splitOnChar ' ' ddl.toList).map (fun w =>
      if toLowerStr ⟨w⟩ = "number" then "NUMERIC" else (⟨w⟩ : String)))
  else ddl

/-- The `create_new_table` block (lines 404-445): when requested and a DDL
is configured, the table is created only if absent (after the inline type
repair); a rejected CREATE is re-raised as an error naming the table.
Returns the column list the later information_schema fetch will see. -/
def createTablePhase (oracle : SqlOracle) (job : ETLJobM)
    (schName tbl : String) (snap : DestSnapshot) :
    List Event × Except EtlErr (List (String × String)) :=
  if job.createNewTable ∧ ddlTruthy job then
    match snap.initialTable with
    | some tc => ([], .ok tc)
    | none =>
      let ddl := fixNumberDdl (job.newTableDdl.getD "")
      let eff := SqlEffect.createTable ddl
      ([.sql eff],
       match oracle.sqlFail eff with
       | some msg => .error (.createTableFailed schName tbl msg)
       | none => .ok snap.ddlColumns)
  else ([], .ok (snap.initialTable.getD []))

/-- The strategy-dependent schema reconciliation (lines 476-618), given the
fetched column list.  On success returns the (possibly refreshed)
`existing_columns` variable.  truncate_insert: create when absent, drop
and recreate on any set difference (needing a DDL), else truncate.
insert/upsert: when the table exists, missing columns are auto-added for
insert (each ALTER failure re-raised naming the column, then the column
list refreshed) while extra columns are only logged; any difference is a
hard error for upsert naming both audit-filtered column sets; when the
table does not exist it is created from the configured DDL or the run
fails. -/
def reconcilePhase (oracle : SqlOracle) (job : ETLJobM)
    (schName tbl : String) (tableCols : List (String × String))
    (dfColumns : List String) :
    List Event × Except EtlErr (List String) :=
  let existingColumns := tableCols.map Prod.fst
  let tableExists : Bool := ¬ existingColumns.isEmpty
  let columnsForCmp := cmpColumns dfColumns
  let existingForCmp := cmpColumns existingColumns
  if job.loadStrategy = "truncate_insert" then
    if ¬ tableExists then
      if ddlTruthy job then
        let eff := SqlEffect.createTable (job.newTableDdl.getD "")
        ([.sql eff],
         match oracle.sqlFail eff with
         | some msg => .error (.sqlError msg)
         | none => .ok existingColumns)
      else ([], .error (.noDdl schName tbl))
    else if ¬ listSetEq existingForCmp columnsForCmp then
      let dropEff := SqlEffect.dropTable schName tbl
      match oracle.sqlFail dropEff with
      | some msg => ([.sql dropEff], .error (.sqlError msg))
      | none =>
        if ddlTruthy job then
          let eff := SqlEffect.createTable (job.newTableDdl.getD "")
          ([.sql dropEff, .sql eff],
           match oracle.sqlFail eff with
           | some msg => .error (.sqlError msg)
           | none => .ok existingColumns)
        else
          ([.sql dropEff],
           .error (.schemaMismatchNoDdl columnsForCmp existingForCmp))
    else
      let eff := SqlEffect.truncateTable schName tbl
      ([.sql eff],
       match oracle.sqlFail eff with
       | some msg => .error (.sqlError msg)
       | none => .ok existingColumns)
  else
    if tableExists then
      let missing := missingCols columnsForCmp existingForCmp
      let extra := extraCols columnsForCmp existingForCmp
      if missing ≠ [] ∨ extra ≠ [] then
        let addRes :=
          if missing ≠ [] ∧ job.loadStrategy = "insert" then
            let order := oracle.setOrder missing
            let r := autoAddColumns oracle schName tbl
              (columnTypeMap job.columnMappings) order
            (r.1, r.2, existingColumns ++ order)
          else ([], none, existingColumns)
        match addRes.2.1 with
        | some e => (addRes.1, .error e)
        | none =>
          if extra ≠ [] ∧ job.loadStrategy = "insert" then
            (addRes.1, .ok addRes.2.2)
          else if job.loadStrategy = "upsert" ∧ (missing ≠ [] ∨ extra ≠ []) then
            (addRes.1,
             .error (.schemaMismatchUpsert schName tbl existingForCmp columnsForCmp))
          else (addRes.1, .ok addRes.2.2)
      else ([], .ok existingColumns)
    else
      if ddlTruthy job then
        let eff := SqlEffect.createTable (job.newTableDdl.getD "")
        ([.sql eff],
         match oracle.sqlFail eff with
         | some msg => .error (.sqlError msg)
         | none => .ok existingColumns)
      else ([], .error (.noDdl schName tbl))

/-- The timestamp stamping of lines 620-645: for insert/truncate_insert the
current time is written into absent `created_at` / `updated_at` columns the
table has; for upsert they are added as NULL columns (the DML's COALESCE
and SET clauses then manage them). -/
def addTimestampColumns (strategy : String) (existingColumns : List String)
    (df : DataFrame) (now : Value) : DataFrame :=
  let hasCreated := existingColumns.contains "created_at"
  let hasUpdated := existingColumns.contains "updated_at"
  if strategy = "insert" ∨ strategy = "truncate_insert" then
    let df1 :=
      if hasCreated ∧ ¬ df.columns.contains "created_at" then
        df.set "created_at" (constSeries .datetime now df.nRows)
      else df
    if hasUpdated ∧ ¬ df1.columns.contains "updated_at" then
      df1.set "updated_at" (constSeries .datetime now df1.nRows)
    else df1
  else if strategy = "upsert" then
    let df1 :=
      if hasCreated ∧ ¬ df.columns.contains "created_at" then
        df.set "created_at" (constSeries .object .null df.nRows)
      else df
    if hasUpdated ∧ ¬ df1.columns.contains "updated_at" then
      df1.set "updated_at" (constSeries .object .null df1.nRows)
    else df1
  else df

/-- `str(value)` as rendered into a text column; a null renders as the
string "nan", which line 663 maps back to null. -/
def valueToStr : Value → String
  | .null => "nan"
  | .text s => s
  | .num n => toString n
  | .boolean b => if b then "True" else "False"
  | .time y m d => s!"{y}-{m}-{d}"

/-- `astype(str)` followed by replacing `'nan'` / `'<NA>'` with None. -/
def astypeStrReplaceNan (s : Series) : Series :=
  ⟨.object, s.values.map (fun v =>
    let t := valueToStr v
    if t = "nan" ∨ t = "<NA>" then .null else .text t)⟩

/-- `pd.to_numeric(_, errors='coerce')` on one cell: unparseable cells
coerce to null instead of raising. -/
def toNumericValue : Value → Value
  | .null => .null
  | .num n => .num n
  | .boolean b => .num (if b then 1 else 0)
  | .text s =>
    match parseIntStr s with
    | some n => .num n
    | none => .null
  | .time _ _ _ => .null

/-- The per-column native-type coercion of lines 653-705, keyed by the
table's udt type name.  All branches use coercing conversions, so the
defensive `except` of the source is unreachable in the model. -/
def dbConvertSeries (dbType : String) (s : Series) : Series :=
  if ["text", "varchar", "char", "bpchar"].contains dbType then
    astypeStrReplaceNan s
  else if ["int2", "int4", "int8", "integer", "bigint", "smallint"].contains dbType then
    ⟨.int64, s.values.map toNumericValue⟩
  else if ["float4", "float8", "numeric", "decimal", "real", "double precision"].contains dbType then
    ⟨.float64, s.values.map toNumericValue⟩
  else if ["bool", "boolean"].contains dbType then
    astypeBool s
  else if ["timestamp", "timestamptz", "date", "time"].contains dbType then
    toDatetimeSeries s
  else
    astypeStrReplaceNan s

/-- The conversion loop: every DataFrame column whose name appears in the
initially fetched `existing_column_types` map is converted to the table's
native type; runs only when the table pre-existed and the strategy is
insert or upsert. -/
def dbConvertDataFrame (tableExists : Bool) (strategy : String)
    (existingColumnTypes : List (String × String)) (df : DataFrame) :
    DataFrame :=
  if tableExists ∧ (strategy = "upsert" ∨ strategy = "insert") then
    df.columns.foldl (fun acc col =>
      match existingColumnTypes.lookup col with
      | none => acc
      | some dbType =>
        match acc.get? col with
        | none => acc
        | some s => acc.set col (dbConvertSeries dbType s)) df
  else df

/-- The upsert constraint-provisioning section (lines 707-796): when no
unique constraint covers the upsert keys, a primary key is auto-provisioned
(dropping any existing one first) provided the keys coincide with the
mappings' declared primary-key columns; otherwise the run fails naming the
keys and the declared primary-key columns. -/
def constraintPhase (oracle : SqlOracle) (job : ETLJobM)
    (schName tbl : String) (snap : DestSnapshot) :
    List Event × Option EtlErr :=
  if job.loadStrategy = "upsert" ∧ job.upsertKeys ≠ [] then
    if ¬ snap.constraintOnKeys then
      let pkColumns := (job.columnMappings.filter (fun m =>
        m.isPrimaryKey ∧ ¬ m.exclude)).map (fun m => m.destColumn)
      if listSetEq job.upsertKeys pkColumns ∧ pkColumns ≠ [] then
        let addEff := SqlEffect.addPrimaryKey schName tbl job.upsertKeys
        match snap.existingPk with
        | some pkName =>
          let dropEff := SqlEffect.dropConstraint schName tbl pkName
          match oracle.sqlFail dropEff with
          | some msg =>
            ([.sql dropEff], some (.addPrimaryKeyFailed job.upsertKeys msg))
          | none =>
            ([.sql dropEff, .sql addEff],
             match oracle.sqlFail addEff with
             | some msg => some (.addPrimaryKeyFailed job.upsertKeys msg)
             | none => none)
        | none =>
          ([.sql addEff],
           match oracle.sqlFail addEff with
           | some msg => some (.addPrimaryKeyFailed job.upsertKeys msg)
           | none => none)
      else
        ([], some (.missingUpsertConstraint schName tbl job.upsertKeys pkColumns))
    else ([], none)
  else ([], none)

/-- The batch loop together with its final run update (etl_service.py
lines 804-942): on success the loop's trace is followed by the final
persisted update forcing `progress_percentage` to 100; on a slice failure
the loop's trace ends with the failure update and the error propagates. -/
def sliceLoopPhase (q : DmlQuery) (oracle : SqlOracle) (total bs : Nat) :
    List Event × Option EtlErr :=
  let wRes := writeSlices q oracle total bs
  match wRes.2.2.2 with
  | some e => (wRes.1, some e)
  | none =>
    (wRes.1 ++ [Event.runUpdate
      { rowsProcessed := some wRes.2.1
      , rowsFailed := some wRes.2.2.1
      , errorCount := some wRes.2.2.1
      , progress := some 100 }], none)

/-- `ETLService._write_to_postgresql` (etl_service.py lines 366-952): the
whole destination-side pipeline — config checks, schema creation, optional
table creation, schema reconciliation, timestamp stamping, native-type
coercion, constraint provisioning, and the sliced batch loop with its
progress tracking and final update.  Returns the event trace and the error
that aborted the run, if any. -/
def writeToPostgresql (df0 : DataFrame) (job : ETLJobM)
    (snap : DestSnapshot) (oracle : SqlOracle) (now : Value) :
    List Event × Option EtlErr :=
  if ¬ destConfigOk job.destConfig then ([], some .invalidDestConfig)
  else if ¬ snap.credentialFound then ([], some .credentialNotFound)
  else
    let schName := job.destConfig.schemaOpt.getD "public"
    let tbl := job.destConfig.table.getD ""
    let evSchema := Event.sql (.createSchema schName)
    match oracle.sqlFail (.createSchema schName) with
    | some msg => ([evSchema], some (.sqlError msg))
    | none =>
      let createRes := createTablePhase oracle job schName tbl snap
      match createRes.2 with
      | .error e => (evSchema :: createRes.1, some e)
      | .ok tableCols =>
        let existingColumnTypes := tableCols
        let tableExists : Bool := ¬ tableCols.isEmpty
        let recRes := reconcilePhase oracle job schName tbl tableCols df0.columns
        match recRes.2 with
        | .error e => (evSchema :: createRes.1 ++ recRes.1, some e)
        | .ok existingColumns1 =>
          let df1 := addTimestampColumns job.loadStrategy existingColumns1 df0 now
          let df2 := dbConvertDataFrame tableExists job.loadStrategy
            existingColumnTypes df1
          let conRes := constraintPhase oracle job schName tbl snap
          match conRes.2 with
          | some e =>
            (evSchema :: createRes.1 ++ recRes.1 ++ conRes.1, some e)
          | none =>
            let totalRows := df2.nRows
            let bs := if job.batchSize = 0 then 10000 else job.batchSize
            let q :=
              if job.loadStrategy = "upsert" ∧ job.upsertKeys ≠ [] then
                DmlQuery.upsert (buildUpsertQuery df2.columns job.upsertKeys)
              else DmlQuery.insert df2.columns
            let loopRes := sliceLoopPhase q oracle totalRows bs
            (evSchema :: createRes.1 ++ recRes.1 ++ conRes.1 ++ loopRes.1,
             loopRes.2)

/-! ## The Orchestrator (etl_service.execute_job) -/

/-- Rendering of a transform-stage error into the persisted message. -/
def transformErrMessage : TransformErr → String
  | .sourceColumnMissing c => s!"Source column {c} not found in data"
  | .unknownTransformation t => s!"Unknown transformation {t}"

/-- Rendering of a load-stage error into the persisted message. -/
def etlErrMessage : EtlErr → String
  | .invalidDestConfig => "Destination config must include credential_id and table"
  | .credentialNotFound => "Credential not found"
  | .createTableFailed _ tbl msg => s!"Failed to create table {tbl}: {msg}"
  | .noDdl _ tbl => s!"Table {tbl} does not exist and no DDL provided"
  | .schemaMismatchNoDdl _ _ => "Schema mismatch detected but no DDL available to recreate table"
  | .addColumnFailed col _ tbl msg => s!"Failed to add column {col} to table {tbl}: {msg}"
  | .schemaMismatchUpsert _ tbl _ _ => s!"Schema mismatch detected for UPSERT strategy on {tbl}"
  | .addPrimaryKeyFailed _ msg => s!"Failed to automatically add PRIMARY KEY constraint: {msg}"
  | .missingUpsertConstraint _ tbl _ _ => s!"UPSERT strategy requires a PRIMARY KEY or UNIQUE constraint on {tbl}"
  | .dmlFailed msg => msg
  | .sqlError msg => msg

/-- The `_update_job_run(status=FAILED, ...)` call of the exception handler
(lines 125-132). -/
def failedUpdate (msg : String) : Event :=
  .runUpdate { status := some .failed
             , errorMessage := some msg
             , message := some ("Job failed: " ++ msg) }

/-- `ETLService.execute_job` (etl_service.py lines 35-134): loads the run
record and the job, marks the run RUNNING, extracts (the source read is
external I/O, supplied as `readOutcome`), transforms, writes to the
destination, and marks the run COMPLETED with progress forced to 100; any
raised error drives the run to FAILED (when the run record exists) and is
re-raised.  Returns the persisted-update / SQL trace and the re-raised
error message, if any. -/
def executeJob (jobRunFound jobFound : Bool) (job : ETLJobM)
    (readOutcome : Except String DataFrame) (snap : DestSnapshot)
    (oracle : SqlOracle) (now : Value) : List Event × Option String :=
  if ¬ jobRunFound then ([], some "JobRun not found")
  else if ¬ jobFound then
    ([failedUpdate "ETL Job not found"], some "ETL Job not found")
  else
    let evRun := Event.runUpdate
      { status := some .running, message := some "Job execution started" }
    match readOutcome with
    | .error msg => ([evRun, failedUpdate msg], some msg)
    | .ok df =>
      let evTotal := Event.runUpdate
        { rowsTotal := some df.nRows
        , message := some s!"Read {df.nRows} rows from source" }
      match applyTransformationsM now df job.columnMappings with
      | .error te =>
        ([evRun, evTotal, failedUpdate (transformErrMessage te)],
         some (transformErrMessage te))
      | .ok dfw =>
        let evT := Event.runUpdate
          { message := some "Transformations applied successfully" }
        if job.destinationType = "postgresql" ∨ job.destinationType = "redshift" then
          let wRes := writeToPostgresql dfw.1 job snap oracle now
          match wRes.2 with
          | some e =>
            ([evRun, evTotal, evT] ++ wRes.1 ++ [failedUpdate (etlErrMessage e)],
             some (etlErrMessage e))
          | none =>
            let evC := Event.runUpdate
              { status := some .completed
              , progress := some 100
              , message := some "Job completed successfully" }
            ([evRun, evTotal, evT] ++ wRes.1 ++ [evC], none)
        else
          ([evRun, evTotal, evT, failedUpdate "Unsupported destination type"],
           some "Unsupported destination type")

/-! ## Job-creation validation (api/v1/endpoints/etl_jobs.py, create_job) -/

/-- A `ColumnMappingCreate` payload, restricted to the fields the upsert
validation reads. -/
structure ColumnMappingCreateM where
  destinationColumn : String
  isPrimaryKey : Bool
  exclude : Bool
deriving DecidableEq, Repr

/-- An `ETLJobCreate` payload, restricted to the fields the upsert
validation reads (`upsert_keys` is optional; `None` behaves as the empty
list under Python truthiness). -/
structure ETLJobCreateM where
  loadStrategy : String
  upsertKeys : List String
  columnMappings : List ColumnMappingCreateM
deriving DecidableEq, Repr

/-- The declared primary-key columns of the payload (create_job lines
64-68): non-excluded primary-key mappings with a truthy destination
column. -/
def pkColumnsOf (j : ETLJobCreateM) : List String :=
  (j.columnMappings.filter (fun c =>
    c.isPrimaryKey ∧ ¬ c.exclude ∧ c.destinationColumn ≠ "")).map
    (fun c => c.destinationColumn)

/-- The three HTTP 400 rejections of the upsert validation, in the order
the endpoint checks them. -/
inductive ApiError where
  | upsertRequiresPrimaryKey
  | upsertRequiresKeys
  | invalidUpsertKeys (keys : List String)
deriving DecidableEq, Repr

/-- The upsert validation of `create_job` (etl_jobs.py lines 61-97),
executed before the job row is created and before any destination access:
upsert requires at least one declared primary-key column, a non-empty
`upsert_keys`, and every upsert key to be among the declared primary-key
columns (the rejection names the offending keys). -/
def createJobValidate (j : ETLJobCreateM) : Option ApiError :=
  if j.loadStrategy = "upsert" then
    let pk := pkColumnsOf j
    if pk = [] then some .upsertRequiresPrimaryKey
    else if j.upsertKeys = [] then some .upsertRequiresKeys
    else
      let invalid := j.upsertKeys.filter (fun k => ¬ pk.contains k)
      if invalid ≠ [] then some (.invalidUpsertKeys invalid) else none
  else none

/-! ## Trace projections -/

/-- The persisted `progress_percentage` carried by an event, if any. -/
def eventProgress : Event → Option Nat
  | .runUpdate u => u.progress
  | .sql _ => none

/-- The persisted `status` carried by an event, if any. -/
def eventStatus : Event → Option RunStatus
  | .runUpdate u => u.status
  | .sql _ => none

/-- The `progress_percentage` values persisted along a trace, in order. -/
def progressValues (evts : List Event) : List Nat :=
  evts.filterMap eventProgress

/-- The `status` values persisted along a trace, in order. -/
def statusUpdates (evts : List Event) : List RunStatus :=
  evts.filterMap eventStatus

/-- Sliced-loop ordering invariant: a batch DML may only follow a persisted
progress update (or start the trace) — the tracker is persisted before the
next slice starts. -/
def updBeforeNextSlice (a b : Event) : Prop :=
  (∃ i q n, b = Event.sql (.dml i q n)) →
    ∃ u, a = Event.runUpdate u ∧ u.rowsProcessed.isSome ∧ u.progress.isSome

/-! ## Concrete fixtures used by counterexamples and witnesses -/

/-- An oracle on which every SQL statement succeeds and set iteration is
the identity enumeration. -/
def okOracle : SqlOracle :=
  { sqlFail := fun _ => none, setOrder := id }

/-- A two-row source DataFrame with a single numeric column. -/
def c1df : DataFrame :=
  ⟨[("amount", ⟨.int64, [.num 1, .num 2]⟩)]⟩

/-- A non-excluded mapping with no source column and a (syntactically
invalid) calculated expression. -/
def c1map : ColumnMappingM :=
  { sourceColumn := ""
  , sourceDataType := "integer"
  , destColumn := "calc"
  , destDataType := "INTEGER"
  , transformations := []
  , isNullable := true
  , defaultValue := none
  , exclude := false
  , columnOrder := 1
  , isPrimaryKey := false
  , isCalculated := true
  , calculationExpression := some "amount +" }

/-- An upsert job whose single upsert key references a mapping that is not
marked primary key. -/
def c9cexJob : ETLJobCreateM :=
  { loadStrategy := "upsert"
  , upsertKeys := ["id"]
  , columnMappings :=
      [{ destinationColumn := "id", isPrimaryKey := false, exclude := false }] }

/-- An upsert job with one declared primary-key column and one stray
upsert key. -/
def c9witJob : ETLJobCreateM :=
  { loadStrategy := "upsert"
  , upsertKeys := ["a", "b"]
  , columnMappings :=
      [{ destinationColumn := "a", isPrimaryKey := true, exclude := false }] }

/-- A mapping with a source column, a numeric destination type and no
transformations (exercises the coercion-failure path on textual data). -/
def c8map : ColumnMappingM :=
  { sourceColumn := "v"
  , sourceDataType := "text"
  , destColumn := "v_num"
  , destDataType := "INTEGER"
  , transformations := []
  , isNullable := true
  , defaultValue := none
  , exclude := false
  , columnOrder := 0
  , isPrimaryKey := false
  , isCalculated := false
  , calculationExpression := none }

/-- A source frame whose `v` column cannot be coerced to INTEGER. -/
def c8df : DataFrame :=
  ⟨[("v", ⟨.object, [.text "abc"]⟩)]⟩

/-- An upsert job against table `t` of schema `public` (credential 1). -/
def c2job : ETLJobM :=
  { loadStrategy := "upsert"
  , upsertKeys := ["id"]
  , batchSize := 1000
  , createNewTable := false
  , newTableDdl := none
  , columnMappings := []
  , destinationType := "postgresql"
  , destConfig :=
      { credentialId := some 1, schemaOpt := some "public", table := some "t" } }

/-- A destination snapshot with an existing table `(id, v)`. -/
def c2snap : DestSnapshot :=
  { credentialFound := true
  , initialTable := some [("id", "int4"), ("v", "text")]
  , ddlColumns := []
  , constraintOnKeys := true
  , existingPk := none }

/-- A destination batch with columns `(id, w)` — `w` missing from the
table, `v` extra in it. -/
def c2df : DataFrame :=
  ⟨[("id", ⟨.int64, [.num 1]⟩), ("w", ⟨.object, [.text "x"]⟩)]⟩

/-- An insert job against table `t` of schema `public`. -/
def c5job : ETLJobM :=
  { loadStrategy := "insert"
  , upsertKeys := []
  , batchSize := 10
  , createNewTable := false
  , newTableDdl := none
  , columnMappings := []
  , destinationType := "postgresql"
  , destConfig :=
      { credentialId := some 1, schemaOpt := some "public", table := some "t" } }

/-- A snapshot with an existing table `(id, v)` — `v` will be an extra
column relative to the batch below. -/
def c5snap : DestSnapshot :=
  { credentialFound := true
  , initialTable := some [("id", "int4"), ("v", "text")]
  , ddlColumns := []
  , constraintOnKeys := true
  , existingPk := none }

/-- A one-column destination batch (no missing columns, `v` extra). -/
def c5df : DataFrame :=
  ⟨[("id", ⟨.int64, [.num 1]⟩)]⟩

/-- An oracle whose slice number 1 DML fails with "boom". -/
def c3oracle : SqlOracle :=
  { sqlFail := fun e =>
      match e with
      | .dml 1 _ _ => some "boom"
      | _ => none
  , setOrder := id }

/-! # Claim theorems -/

/-- C10: for every series and every target type whose upper-casing is not
among the recognized names of `type_mapping` (TEXT, VARCHAR, CHAR, INTEGER,
BIGINT, SMALLINT, NUMERIC, DECIMAL, FLOAT, DOUBLE, BOOLEAN, TIMESTAMP,
DATE, DATETIME), `convert_data_type` returns the input series unchanged and
raises no error, silently disabling coercion for that column. -/
theorem c10_unknown_type_passthrough (series : Series) (targetType : String)
    (h : typeMapping.lookup (toUpperStr targetType) = none) :
    convertDataType series targetType = .ok series := by
  unfold convertDataType
  rw [h]

/-- Witness for C10: the target type `"uuid"` is unrecognized and flows
through unchanged. -/
theorem c10_witness :
    typeMapping.lookup (toUpperStr "uuid") = none ∧
    convertDataType ⟨.object, [.text "x"]⟩ "uuid" = .ok ⟨.object, [.text "x"]⟩ :=
  ⟨by decide, c10_unknown_type_passthrough _ _ (by decide)⟩

/-- C1 (counterexample): a non-excluded mapping with an absent source
column and a calculated expression set (here a syntactically broken one)
neither materializes a destination column nor raises an expression error
— the transform stage simply skips it, so the claimed restricted-evaluator
behaviour does not exist in the code. -/
theorem c1_counterexample :
    c1map.exclude = false ∧
    c1map.sourceColumn = "" ∧
    c1map.calculationExpression = some "amount +" ∧
    applyTransformationsM Value.null c1df [c1map] = .ok (⟨[]⟩, []) := by
  decide

/-- C1 (amended): a non-excluded mapping whose source column is absent is
skipped by the Transform Engine — it contributes no destination column,
evaluates nothing and raises nothing (etl_service.py lines 270-274). -/
theorem c1_no_source_is_skipped (now : Value) (df : DataFrame)
    (m : ColumnMappingM) (hex : m.exclude = false)
    (hsrc : m.sourceColumn = "") :
    processMapping now df m = .ok (none, []) := by
  unfold processMapping
  simp [hex, hsrc]

/-- Witness for the amended C1 theorem at a concrete mapping. -/
theorem c1_witness :
    c1map.exclude = false ∧ c1map.sourceColumn = "" ∧
    processMapping Value.null c1df c1map = .ok (none, []) :=
  ⟨rfl, rfl, c1_no_source_is_skipped Value.null c1df c1map rfl rfl⟩

/-- C9 (counterexample): when no mapping is marked primary key at all, a
job whose non-empty `upsert_keys` references a non-primary-key mapping is
rejected, but with the generic primary-key-required error — the rejection
does not name the offending keys, contradicting the claim as stated. -/
theorem c9_counterexample :
    c9cexJob.loadStrategy = "upsert" ∧
    c9cexJob.upsertKeys = ["id"] ∧
    (pkColumnsOf c9cexJob).contains "id" = false ∧
    createJobValidate c9cexJob = some ApiError.upsertRequiresPrimaryKey ∧
    createJobValidate c9cexJob ≠ some (ApiError.invalidUpsertKeys ["id"]) := by
  decide

/-- C9 (amended): a job submitted with upsert strategy and a non-empty
`upsert_keys` containing a name that does not reference a non-excluded
primary-key mapping is always rejected by `create_job` validation (which
runs before the job row is stored and never touches any destination); the
rejection names the offending keys whenever at least one primary-key
mapping exists, and is the generic primary-key-required error otherwise. -/
theorem c9_upsert_keys_validated (j : ETLJobCreateM) (k : String)
    (hs : j.loadStrategy = "upsert") (hne : j.upsertKeys ≠ [])
    (hk : k ∈ j.upsertKeys) (hnp : (pkColumnsOf j).contains k = false) :
    (createJobValidate j).isSome ∧
    (pkColumnsOf j ≠ [] →
      createJobValidate j =
        some (.invalidUpsertKeys
          (j.upsertKeys.filter (fun x => ¬ (pkColumnsOf j).contains x)))) := by
  unfold createJobValidate
  rw [if_pos hs]
  by_cases hpk : pkColumnsOf j = []
  · rw [if_pos hpk]
    exact ⟨rfl, fun h => absurd hpk h⟩
  · rw [if_neg hpk, if_neg hne]
    have hkn : k ∉ pkColumnsOf j := by simpa using hnp
    have hmem : k ∈ j.upsertKeys.filter (fun x => ¬ (pkColumnsOf j).contains x) := by
      rw [List.mem_filter]
      exact ⟨hk, by simp [hkn]⟩
    have hfil : j.upsertKeys.filter (fun x => ¬ (pkColumnsOf j).contains x) ≠ [] :=
      List.ne_nil_of_mem hmem
    rw [if_pos hfil]
    exact ⟨rfl, fun _ => rfl⟩

/-- Witness for the amended C9 theorem: key `"b"` is not among the declared
primary keys `["a"]`, and validation rejects naming exactly `["b"]`. -/
theorem c9_witness :
    (createJobValidate c9witJob).isSome ∧
    createJobValidate c9witJob =
      some (.invalidUpsertKeys
        (c9witJob.upsertKeys.filter (fun x => ¬ (pkColumnsOf c9witJob).contains x))) ∧
    c9witJob.upsertKeys.filter (fun x => ¬ (pkColumnsOf c9witJob).contains x) = ["b"] := by
  have h := c9_upsert_keys_validated c9witJob "b" rfl (by decide) (by decide) (by decide)
  exact ⟨h.1, h.2 (by decide), by decide⟩

/-- C4 (counterexample): for the batch whose only non-key insert column is
`updated_at`, the generated conflict action is an UNCONDITIONAL update (no
WHERE gate), so clause (d) of the claim — the update is skipped whenever
every non-timestamp, non-key column is unchanged, which here holds
vacuously for every row — fails: such no-op upserts do bump `updated_at`. -/
theorem c4_counterexample :
    (buildUpsertQuery ["id", "updated_at"] ["id"]).action =
      ConflictAction.updateAll [SetClause.setNow "updated_at"] ∧
    ((buildUpsertQuery ["id", "updated_at"] ["id"]).action).isGated = false := by
  decide

/-- C4 (amended): in every generated upsert statement the update clause
(a) excludes the upsert key columns and (b) excludes `created_at`;
(c) `updated_at` is set to CURRENT_TIMESTAMP and every other updated
column to its EXCLUDED (incoming) value; and (d) — amended — whenever at
least one non-timestamp, non-key column exists, the update is gated by a
WHERE clause over exactly those columns whose IS-DISTINCT-FROM semantics
treats null versus null as unchanged, so a fully unchanged row skips the
update; with no such column the update is unconditional (or DO NOTHING
when no updatable column exists at all). -/
theorem c4_upsert_update_clause (columns keys : List String) :
    (∀ sc ∈ (buildUpsertQuery columns keys).action.setClauses,
      keys.contains sc.col = false ∧ sc.col ≠ "created_at" ∧
      (sc = SetClause.setNow sc.col ↔ sc.col = "updated_at")) ∧
    (updateColumnsFor columns keys = [] →
      (buildUpsertQuery columns keys).action = ConflictAction.doNothing) ∧
    (updateColumnsFor columns keys ≠ [] →
      comparisonColumnsFor columns keys = [] →
      (buildUpsertQuery columns keys).action =
        ConflictAction.updateAll (upsertSetClauses columns keys)) ∧
    (comparisonColumnsFor columns keys ≠ [] →
      (buildUpsertQuery columns keys).action =
        ConflictAction.updateGated (upsertSetClauses columns keys)
          (comparisonColumnsFor columns keys)) ∧
    (∀ rowE rowI : String → Value,
      (∀ c ∈ comparisonColumnsFor columns keys, rowE c = rowI c) →
      updateFires (comparisonColumnsFor columns keys) rowE rowI = false) ∧
    isDistinctFrom Value.null Value.null = false := by
  have hsetcl : (buildUpsertQuery columns keys).action.setClauses =
      upsertSetClauses columns keys := by
    unfold buildUpsertQuery
    by_cases hs : upsertSetClauses columns keys = []
    · simp [hs, ConflictAction.setClauses]
    · by_cases hc : comparisonColumnsFor columns keys = []
      · simp [hs, hc, ConflictAction.setClauses]
      · simp [hs, hc, ConflictAction.setClauses]
  refine ⟨?_, ?_, ?_, ?_, ?_, by decide⟩
  · intro sc hsc
    rw [hsetcl] at hsc
    unfold upsertSetClauses at hsc
    obtain ⟨c, hc, rfl⟩ := List.mem_map.1 hsc
    unfold updateColumnsFor at hc
    rw [List.mem_filter] at hc
    have hp := hc.2
    rw [decide_eq_true_eq] at hp
    have hkc : keys.contains c = false := Bool.eq_false_iff.mpr hp.1
    have hca : c ≠ "created_at" := hp.2
    by_cases hup : c = "updated_at"
    · subst hup
      rw [if_pos rfl]
      exact ⟨hkc, hca, by simp [SetClause.col]⟩
    · rw [if_neg hup]
      exact ⟨hkc, hca, by simp [SetClause.col, hup]⟩
  · intro hup
    unfold buildUpsertQuery
    have : upsertSetClauses columns keys = [] := by
      unfold upsertSetClauses
      rw [hup]
      rfl
    simp [this]
  · intro hne hc
    unfold buildUpsertQuery
    have hs : upsertSetClauses columns keys ≠ [] := by
      unfold upsertSetClauses
      simpa using hne
    simp [hs, hc]
  · intro hc
    unfold buildUpsertQuery
    have hne : updateColumnsFor columns keys ≠ [] := by
      intro h0
      apply hc
      unfold comparisonColumnsFor
      rw [h0]
      rfl
    have hs : upsertSetClauses columns keys ≠ [] := by
      unfold upsertSetClauses
      simpa using hne
    simp [hs, hc]
  · intro rowE rowI hrows
    unfold updateFires
    rw [List.any_eq_false]
    intro c hcmem
    rw [hrows c hcmem]
    simp [isDistinctFrom]

/-- Witness for the amended C4 theorem on a concrete column set: the gate
covers exactly the one data column and a fully unchanged row does not fire
the update. -/
theorem c4_witness :
    comparisonColumnsFor ["id", "v", "updated_at", "created_at"] ["id"] = ["v"] ∧
    (buildUpsertQuery ["id", "v", "updated_at", "created_at"] ["id"]).action =
      ConflictAction.updateGated
        [SetClause.setExcluded "v", SetClause.setNow "updated_at"] ["v"] ∧
    updateFires ["v"] (fun _ => Value.null) (fun _ => Value.null) = false := by
  have h := c4_upsert_update_clause ["id", "v", "updated_at", "created_at"] ["id"]
  exact ⟨by decide, by decide,
    h.2.2.2.2.1 (fun _ => Value.null) (fun _ => Value.null) (fun _ _ => rfl)⟩

/-- C8: in the transform stage, (i) a failing coercion to the destination
type does not abort the run — the mapping still lands in the destination
batch carrying the pre-coercion series (then the configured default fill,
which is the identity when no default is set), and the coercion error is
recorded as a warning; (ii) an error from the transformation service
(in particular an unknown transformation name, the service's only fatal
error source) propagates and aborts the stage. -/
theorem c8_coercion_warning_transform_fatal :
    (∀ (now : Value) (df : DataFrame) (m : ColumnMappingM) (s0 s1 : Series)
        (e : String),
      m.exclude = false → m.sourceColumn ≠ "" →
      df.get? m.sourceColumn = some s0 →
      applyTransformationsSvc now s0 m.transformations = .ok s1 →
      m.destDataType ≠ "" →
      convertDataType s1 m.destDataType = .error e →
      processMapping now df m =
        .ok (some (m.destColumn, applyDefaultFill m s1), [e]) ∧
      (m.defaultValue = none → applyDefaultFill m s1 = s1)) ∧
    (∀ (now : Value) (df : DataFrame) (m : ColumnMappingM) (s0 : Series)
        (te : TransformErr),
      m.exclude = false → m.sourceColumn ≠ "" →
      df.get? m.sourceColumn = some s0 →
      applyTransformationsSvc now s0 m.transformations = .error te →
      processMapping now df m = .error te) ∧
    (∀ (now : Value) (s : Series) (t : String),
      t ≠ "" → t ≠ "none" → (transformRegistry now).lookup t = none →
      applyTransformationSvc now s t = .error (.unknownTransformation t)) := by
  refine ⟨?_, ?_, ?_⟩
  · intro now df m s0 s1 e hex hsrc hget htr hdt hconv
    constructor
    · unfold processMapping
      rw [if_neg (by simp [hex]), if_neg hsrc, hget]
      simp only [htr, hconv]
      simp [hdt, hconv]
    · intro hdv
      unfold applyDefaultFill defaultValueTruthy
      simp [hdv]
  · intro now df m s0 te hex hsrc hget htr
    unfold processMapping
    rw [if_neg (by simp [hex]), if_neg hsrc, hget]
    simp only [htr]
  · intro now s t h1 h2 h3
    unfold applyTransformationSvc
    rw [if_neg (not_or.mpr ⟨h1, h2⟩), h3]

/-- Witness for C8 on concrete data: coercing `"abc"` to INTEGER fails but
the column survives un-coerced with the error recorded as a warning, while
the unknown transformation `"SQUARE"` is fatal. -/
theorem c8_witness :
    convertDataType ⟨.object, [.text "abc"]⟩ "INTEGER" =
      .error "Failed to convert column to INTEGER: invalid literal: abc" ∧
    processMapping Value.null c8df c8map =
      .ok (some ("v_num", ⟨.object, [.text "abc"]⟩),
           ["Failed to convert column to INTEGER: invalid literal: abc"]) ∧
    processMapping Value.null c8df { c8map with transformations := ["SQUARE"] } =
      .error (.unknownTransformation "SQUARE") ∧
    applyTransformationSvc Value.null ⟨.object, []⟩ "SQUARE" =
      .error (.unknownTransformation "SQUARE") := by
  have h := c8_coercion_warning_transform_fatal
  exact ⟨by decide, by decide, by decide,
    h.2.2 Value.null ⟨.object, []⟩ "SQUARE" (by decide) (by decide) rfl⟩

/-- Helper: when the table already exists, the `create_new_table` block
executes nothing and the later column fetch sees the existing table. -/
theorem createTablePhase_existing (oracle : SqlOracle) (job : ETLJobM)
    (schName tbl : String) (snap : DestSnapshot)
    (tc : List (String × String)) (htab : snap.initialTable = some tc) :
    createTablePhase oracle job schName tbl snap = ([], .ok tc) := by
  unfold createTablePhase
  by_cases h : job.createNewTable ∧ ddlTruthy job
  · rw [if_pos h, htab]
  · rw [if_neg h, htab]
    rfl

/-- Helper: for an upsert against an existing table whose audit-filtered
column set differs from the batch's, reconciliation raises the
schema-mismatch error naming both filtered column sets, and executes no
SQL at all. -/
theorem reconcilePhase_upsert_mismatch (oracle : SqlOracle) (job : ETLJobM)
    (schName tbl : String) (tableCols : List (String × String))
    (dfColumns : List String)
    (hstrat : job.loadStrategy = "upsert")
    (htne : tableCols ≠ [])
    (hmm : missingCols (cmpColumns dfColumns) (cmpColumns (tableCols.map Prod.fst)) ≠ [] ∨
           extraCols (cmpColumns dfColumns) (cmpColumns (tableCols.map Prod.fst)) ≠ []) :
    reconcilePhase oracle job schName tbl tableCols dfColumns =
      ([], .error (.schemaMismatchUpsert schName tbl
        (cmpColumns (tableCols.map Prod.fst)) (cmpColumns dfColumns))) := by
  unfold reconcilePhase
  rw [hstrat]
  rw [if_neg (by decide)]
  have hemp : (tableCols.map Prod.fst).isEmpty = false := by
    cases tableCols with
    | nil => exact absurd rfl htne
    | cons p rest => rfl
  rw [if_pos (by simp [hemp])]
  rw [if_pos hmm]
  simp only []
  rw [if_neg (fun h => absurd h.2 (by decide))]
  simp only []
  rw [if_neg (fun h => absurd h.2 (by decide)), if_pos ⟨trivial, hmm⟩]

/-- C2: for an upsert-strategy run against an existing destination table
whose audit-filtered column set differs from the destination batch's by
any missing or extra column, the engine fails with the schema-mismatch
error naming both filtered column sets, and the only SQL executed before
the failure is the CREATE SCHEMA IF NOT EXISTS — in particular no row is
written (no DML effect occurs in the trace). -/
theorem c2_upsert_schema_mismatch_failfast (df : DataFrame) (job : ETLJobM)
    (snap : DestSnapshot) (oracle : SqlOracle) (now : Value)
    (tc : List (String × String))
    (hstrat : job.loadStrategy = "upsert")
    (hcfg : destConfigOk job.destConfig = true)
    (hcred : snap.credentialFound = true)
    (htab : snap.initialTable = some tc)
    (htne : tc ≠ [])
    (hsch : oracle.sqlFail
      (.createSchema (job.destConfig.schemaOpt.getD "public")) = none)
    (hmm : missingCols (cmpColumns df.columns) (cmpColumns (tc.map Prod.fst)) ≠ [] ∨
           extraCols (cmpColumns df.columns) (cmpColumns (tc.map Prod.fst)) ≠ []) :
    writeToPostgresql df job snap oracle now =
      ([Event.sql (.createSchema (job.destConfig.schemaOpt.getD "public"))],
       some (.schemaMismatchUpsert (job.destConfig.schemaOpt.getD "public")
         (job.destConfig.table.getD "")
         (cmpColumns (tc.map Prod.fst)) (cmpColumns df.columns))) ∧
    ∀ se, Event.sql se ∈ (writeToPostgresql df job snap oracle now).1 →
      se.isDml = false := by
  have hmain : writeToPostgresql df job snap oracle now =
      ([Event.sql (.createSchema (job.destConfig.schemaOpt.getD "public"))],
       some (.schemaMismatchUpsert (job.destConfig.schemaOpt.getD "public")
         (job.destConfig.table.getD "")
         (cmpColumns (tc.map Prod.fst)) (cmpColumns df.columns))) := by
    unfold writeToPostgresql
    rw [if_neg (by simp [hcfg]), if_neg (by simp [hcred])]
    simp only []
    rw [hsch]
    simp only []
    rw [createTablePhase_existing oracle job _ _ snap tc htab]
    simp only []
    rw [reconcilePhase_upsert_mismatch oracle job _ _ tc df.columns hstrat htne hmm]
    simp only [List.append_nil, List.nil_append]
  refine ⟨hmain, ?_⟩
  intro se hse
  rw [hmain] at hse
  simp only [List.mem_singleton] at hse
  cases hse
  rfl

/-- Witness for C2: against the concrete table `(id, v)` and batch
`(id, w)` the run stops at the mismatch error with only CREATE SCHEMA
executed. -/
theorem c2_witness :
    cmpColumns (([("id", "int4"), ("v", "text")].map Prod.fst)) = ["id", "v"] ∧
    cmpColumns c2df.columns = ["id", "w"] ∧
    writeToPostgresql c2df c2job c2snap okOracle Value.null =
      ([Event.sql (.createSchema "public")],
       some (.schemaMismatchUpsert "public" "t"
         (cmpColumns ([("id", "int4"), ("v", "text")].map Prod.fst))
         (cmpColumns c2df.columns))) := by
  have h := c2_upsert_schema_mismatch_failfast c2df c2job c2snap okOracle Value.null
    [("id", "int4"), ("v", "text")] rfl (by decide) rfl rfl (by decide) rfl
    (by decide)
  exact ⟨by decide, by decide, h.1⟩

/-- Helper: a DML effect is not a schema change. -/
theorem isDml_not_schemaChange (se : SqlEffect) (h : se.isDml = true) :
    se.isSchemaChange = false := by
  cases se <;> first | rfl | exact absurd h (by simp [SqlEffect.isDml])

/-- Helper: every SQL statement the slice loop executes is a batch DML. -/
theorem writeSlicesAux_sql_dml (q : DmlQuery) (oracle : SqlOracle)
    (total bs : Nat) :
    ∀ n i rp rf se,
      Event.sql se ∈ (writeSlicesAux q oracle total bs n i rp rf).1 →
      se.isDml = true := by
  intro n
  induction n with
  | zero =>
    intro i rp rf se h
    simp [writeSlicesAux] at h
  | succ n ih =>
    intro i rp rf se h
    unfold writeSlicesAux at h
    simp only [] at h
    cases hf : oracle.sqlFail (SqlEffect.dml i q (sliceSize total bs i)) with
    | none =>
      rw [hf] at h
      simp only [] at h
      simp only [List.mem_cons] at h
      rcases h with h | h | h
      · cases h
        rfl
      · cases h
      · exact ih (i + 1) _ _ se h
    | some msg =>
      rw [hf] at h
      simp only [List.mem_cons, List.not_mem_nil, or_false] at h
      rcases h with h | h
      · cases h
        rfl
      · cases h

/-- Helper: every SQL statement issued by the slice loop (final update
included) is DML, never a schema change. -/
theorem sliceLoopPhase_sql_dml (q : DmlQuery) (oracle : SqlOracle)
    (total bs : Nat) :
    ∀ se, Event.sql se ∈ (sliceLoopPhase q oracle total bs).1 →
      se.isDml = true := by
  intro se hse
  unfold sliceLoopPhase at hse
  simp only [] at hse
  cases hw : (writeSlices q oracle total bs).2.2.2 with
  | some err =>
    rw [hw] at hse
    simp only [] at hse
    unfold writeSlices at hse
    exact writeSlicesAux_sql_dml q oracle total bs _ _ _ _ se hse
  | none =>
    rw [hw] at hse
    simp only [List.mem_append, List.mem_cons, List.not_mem_nil,
      or_false] at hse
    rcases hse with hse | hse
    · unfold writeSlices at hse
      exact writeSlicesAux_sql_dml q oracle total bs _ _ _ _ se hse
    · simp at hse

/-- Helper: reconciliation for an insert run with no missing columns (extra
columns allowed) executes no SQL and leaves the column list unchanged. -/
theorem reconcilePhase_insert_nomissing (oracle : SqlOracle) (job : ETLJobM)
    (schName tbl : String) (tableCols : List (String × String))
    (dfColumns : List String)
    (hstrat : job.loadStrategy = "insert")
    (htne : tableCols ≠ [])
    (hmiss : missingCols (cmpColumns dfColumns)
      (cmpColumns (tableCols.map Prod.fst)) = []) :
    reconcilePhase oracle job schName tbl tableCols dfColumns =
      ([], .ok (tableCols.map Prod.fst)) := by
  unfold reconcilePhase
  rw [hstrat]
  rw [if_neg (by decide)]
  have hemp : (tableCols.map Prod.fst).isEmpty = false := by
    cases tableCols with
    | nil => exact absurd rfl htne
    | cons p rest => rfl
  rw [if_pos (by simp [hemp])]
  by_cases hex : extraCols (cmpColumns dfColumns)
      (cmpColumns (tableCols.map Prod.fst)) ≠ []
  · rw [if_pos (Or.inr hex)]
    simp only []
    rw [if_neg (fun h => h.1 hmiss)]
    simp only []
    rw [if_pos ⟨hex, by decide⟩]
  · rw [if_neg (not_or.mpr ⟨fun hm => hm hmiss, hex⟩)]

/-- Helper: the constraint-provisioning section is skipped entirely for
non-upsert strategies. -/
theorem constraintPhase_not_upsert (oracle : SqlOracle) (job : ETLJobM)
    (schName tbl : String) (snap : DestSnapshot)
    (h : job.loadStrategy ≠ "upsert") :
    constraintPhase oracle job schName tbl snap = ([], none) := by
  unfold constraintPhase
  rw [if_neg (fun hc => h hc.1)]

/-- C5 (counterexample): the auto-add loop iterates `missing_columns`, a
Python set of strings, whose iteration order depends on the interpreter's
hash seed; both enumerations below are therefore real executions of the
same configuration, and they emit the ALTERs in different orders — the
order is not a function of the missing-column set, i.e. not name-stable. -/
theorem c5_counterexample :
    (["region", "area"] : List String).Perm ["area", "region"] ∧
    (autoAddColumns okOracle "public" "t"
      [("region", "TEXT"), ("area", "INTEGER")] ["region", "area"]).1 ≠
    (autoAddColumns okOracle "public" "t"
      [("region", "TEXT"), ("area", "INTEGER")] ["area", "region"]).1 := by
  decide

/-- C5 (amended): for an insert-strategy run against an existing table,
(i) the auto-add loop adds every missing column with one ALTER carrying
its declared mapped type (default TEXT), in the interpreter's (hash-seed
dependent, not name-stable) set-iteration order; (ii) a rejected ALTER is
re-raised as an error naming the offending column; (iii) extra existing
columns are tolerated and only logged: with no missing column the whole
run performs no schema-changing statement whatsoever (in particular no
column or table is ever dropped). -/
theorem c5_insert_auto_add_policy :
    (∀ (oracle : SqlOracle) (schName tbl : String)
        (typeMap : List (String × String)) (order : List String),
      (∀ c ∈ order,
        oracle.sqlFail
          (.addColumn schName tbl c ((typeMap.lookup c).getD "TEXT")) = none) →
      autoAddColumns oracle schName tbl typeMap order =
        (order.map (fun c =>
          Event.sql (.addColumn schName tbl c ((typeMap.lookup c).getD "TEXT"))),
         none)) ∧
    (∀ (oracle : SqlOracle) (schName tbl : String)
        (typeMap : List (String × String)) (order : List String) (e : EtlErr),
      (autoAddColumns oracle schName tbl typeMap order).2 = some e →
      ∃ c msg, c ∈ order ∧ e = .addColumnFailed c schName tbl msg) ∧
    (∀ (df : DataFrame) (job : ETLJobM) (snap : DestSnapshot)
        (oracle : SqlOracle) (now : Value) (tc : List (String × String)),
      job.loadStrategy = "insert" →
      destConfigOk job.destConfig = true →
      snap.credentialFound = true →
      snap.initialTable = some tc → tc ≠ [] →
      oracle.sqlFail
        (.createSchema (job.destConfig.schemaOpt.getD "public")) = none →
      missingCols (cmpColumns df.columns) (cmpColumns (tc.map Prod.fst)) = [] →
      ∀ se, Event.sql se ∈ (writeToPostgresql df job snap oracle now).1 →
        se.isSchemaChange = false) := by
  refine ⟨?_, ?_, ?_⟩
  · intro oracle schName tbl typeMap order
    induction order with
    | nil => intro _; rfl
    | cons c rest ih =>
      intro hok
      unfold autoAddColumns
      simp only []
      rw [hok c (List.mem_cons_self c rest)]
      simp only []
      rw [ih (fun c2 hc2 => hok c2 (List.mem_cons_of_mem c hc2))]
      rfl
  · intro oracle schName tbl typeMap order
    induction order with
    | nil =>
      intro e h
      simp [autoAddColumns] at h
    | cons c rest ih =>
      intro e h
      unfold autoAddColumns at h
      simp only [] at h
      cases hf : oracle.sqlFail
          (SqlEffect.addColumn schName tbl c ((typeMap.lookup c).getD "TEXT")) with
      | none =>
        rw [hf] at h
        simp only [] at h
        obtain ⟨c2, msg, hc2, he⟩ := ih e h
        exact ⟨c2, msg, List.mem_cons_of_mem c hc2, he⟩
      | some msg =>
        rw [hf] at h
        simp only [Option.some.injEq] at h
        exact ⟨c, msg, List.mem_cons_self c rest, h.symm⟩
  · intro df job snap oracle now tc hstrat hcfg hcred htab htne hsch hmiss
    intro se hse
    revert hse
    unfold writeToPostgresql
    rw [if_neg (by simp [hcfg]), if_neg (by simp [hcred])]
    simp only []
    rw [hsch]
    simp only []
    rw [createTablePhase_existing oracle job _ _ snap tc htab]
    simp only []
    rw [reconcilePhase_insert_nomissing oracle job _ _ tc df.columns hstrat htne hmiss]
    simp only []
    rw [constraintPhase_not_upsert oracle job _ _ snap (by rw [hstrat]; decide)]
    simp only [List.append_nil, List.nil_append]
    intro hse
    simp only [List.mem_append, List.mem_cons, List.not_mem_nil,
      or_false] at hse
    rcases hse with hse | hse
    · obtain rfl := Event.sql.inj hse
      rfl
    · exact isDml_not_schemaChange se
        (sliceLoopPhase_sql_dml _ oracle _ _ se hse)

/-- Witness for C5: one missing column `region` of declared type TEXT is
added by exactly one ALTER; and on the concrete insert run with only an
extra column the whole trace is free of schema changes. -/
theorem c5_witness :
    autoAddColumns okOracle "public" "t" [("region", "TEXT")] ["region"] =
      (["region"].map (fun c =>
        Event.sql (.addColumn "public" "t" c
          (([("region", "TEXT")].lookup c).getD "TEXT"))), none) ∧
    (["region"].map (fun c =>
        Event.sql (.addColumn "public" "t" c
          (([("region", "TEXT")].lookup c).getD "TEXT")))) =
      [Event.sql (.addColumn "public" "t" "region" "TEXT")] ∧
    Event.sql (.createSchema "public") ∈
      (writeToPostgresql c5df c5job c5snap okOracle Value.null).1 ∧
    SqlEffect.isSchemaChange (.createSchema "public") = false := by
  have h := c5_insert_auto_add_policy
  refine ⟨h.1 okOracle "public" "t" _ _ (fun c hc => rfl), by decide, by decide, ?_⟩
  exact h.2.2 c5df c5job c5snap okOracle Value.null
    [("id", "int4"), ("v", "text")] rfl (by decide) rfl rfl (by decide) rfl
    (by decide) _ (by decide)

/-- Helper: one slice advances the clamped row counter by the slice size. -/
theorem min_add_sliceSize (total bs i : Nat) :
    min (i * bs) total + sliceSize total bs i = min (i * bs + bs) total := by
  unfold sliceSize sliceSizeAt
  rcases Nat.le_total (i * bs + bs) total with h1 | h1
  · rw [Nat.min_eq_left h1, Nat.min_eq_left (le_trans (Nat.le_add_right _ _) h1)]
    omega
  · rw [Nat.min_eq_right h1]
    rcases Nat.le_total (i * bs) total with h2 | h2
    · rw [Nat.min_eq_left h2]
      omega
    · rw [Nat.min_eq_right h2]
      omega

/-- Helper: dropping the head of a non-empty-tailed list keeps the last
element. -/
theorem getLast?_cons_of_ne_nil {α : Type} (a : α) (l : List α)
    (h : l ≠ []) : (a :: l).getLast? = l.getLast? := by
  cases l with
  | nil => exact absurd rfl h
  | cons b r => rfl

/-- Helper: behaviour of the slice loop up to and at the first failing
slice `k`: the loop errors with the slice's DML message, counts the whole
slice as failed, keeps the clamped rows-processed count, persists the
failure update last, attempts no slice after `k`, and has persisted a
progress update for every earlier slice. -/
theorem writeSlicesAux_first_fail (q : DmlQuery) (oracle : SqlOracle)
    (total bs k : Nat) (msg : String)
    (hfail : oracle.sqlFail (.dml k q (sliceSize total bs k)) = some msg)
    (hok : ∀ j, j < k →
      oracle.sqlFail (.dml j q (sliceSize total bs j)) = none) :
    ∀ n i rp rf, i ≤ k → k < i + n → rp = min (i * bs) total →
      (writeSlicesAux q oracle total bs n i rp rf).2.2.2 =
        some (.dmlFailed msg) ∧
      (writeSlicesAux q oracle total bs n i rp rf).2.2.1 =
        rf + sliceSize total bs k ∧
      (writeSlicesAux q oracle total bs n i rp rf).2.1 =
        min (k * bs) total ∧
      (writeSlicesAux q oracle total bs n i rp rf).1.getLast? =
        some (.runUpdate
          { rowsFailed := some (rf + sliceSize total bs k)
          , errorCount := some (rf + sliceSize total bs k) }) ∧
      (∀ j q2 n2, Event.sql (.dml j q2 n2) ∈
        (writeSlicesAux q oracle total bs n i rp rf).1 → j ≤ k) ∧
      (∀ j, i ≤ j → j < k → Event.runUpdate
        { rowsProcessed := some (min ((j + 1) * bs) total)
        , progress := some (progressPctFloat (min ((j + 1) * bs) total) total)
        , message := some (processedMsg (min ((j + 1) * bs) total) total) } ∈
        (writeSlicesAux q oracle total bs n i rp rf).1) := by
  intro n
  induction n with
  | zero =>
    intro i rp rf hik hkn hrp
    omega
  | succ n ih =>
    intro i rp rf hik hkn hrp
    rcases Nat.eq_or_lt_of_le hik with heq | hlt
    · subst heq
      unfold writeSlicesAux
      simp only []
      rw [hfail]
      refine ⟨rfl, rfl, hrp, rfl, ?_, ?_⟩
      · intro j q2 n2 hmem
        simp only [List.mem_cons, List.not_mem_nil, or_false] at hmem
        rcases hmem with h | h
        · injection h with h2
          injection h2 with h3 h4 h5
          omega
        · cases h
      · intro j hij hjk
        omega
    · unfold writeSlicesAux
      simp only []
      rw [hok i hlt]
      simp only []
      have hrp2 : rp + sliceSize total bs i = min ((i + 1) * bs) total := by
        rw [hrp, min_add_sliceSize, Nat.succ_mul]
      obtain ⟨ih1, ih2, ih3, ih4, ih5, ih6⟩ :=
        ih (i + 1) (rp + sliceSize total bs i) rf hlt (by omega) hrp2
      refine ⟨ih1, ih2, ih3, ?_, ?_, ?_⟩
      · rw [getLast?_cons_of_ne_nil, getLast?_cons_of_ne_nil]
        · exact ih4
        · intro h0
          rw [h0] at ih4
          cases ih4
        · intro h0
          cases h0
      · intro j q2 n2 hmem
        simp only [List.mem_cons] at hmem
        rcases hmem with h | h | h
        · injection h with h2
          injection h2 with h3 h4 h5
          omega
        · cases h
        · exact ih5 j q2 n2 h
      · intro j hij hjk
        rcases Nat.eq_or_lt_of_le hij with hje | hjlt
        · subst hje
          refine List.mem_cons_of_mem _ (List.mem_cons.mpr (Or.inl ?_))
          rw [hrp2]
        · exact List.mem_cons_of_mem _ (List.mem_cons_of_mem _
            (ih6 j hjlt hjk))

/-- C3: when the bulk DML of slice `k` is the first to fail, the batch loop
(etl_service.py lines 804-932) aborts with that slice's error after
counting every row of the slice in `rows_failed`; the failure counts are
the last persisted update, no slice after `k` is submitted, and the
progress updates persisted for every earlier slice — carrying the partial
`rows_processed` — remain in the trace (the final `rows_processed`
accumulator equals the rows of the successful slices, `min (k·bs) total`).
The re-raised error then propagates out of the writer (its caller marks
the run failed, see the C7 theorem). -/
theorem c3_first_slice_failure_fail_fast (q : DmlQuery) (oracle : SqlOracle)
    (total bs k : Nat) (msg : String)
    (hk : k < numSlices total bs)
    (hfail : oracle.sqlFail (.dml k q (sliceSize total bs k)) = some msg)
    (hok : ∀ j, j < k →
      oracle.sqlFail (.dml j q (sliceSize total bs j)) = none) :
    (writeSlices q oracle total bs).2.2.2 = some (.dmlFailed msg) ∧
    (writeSlices q oracle total bs).2.2.1 = sliceSize total bs k ∧
    (writeSlices q oracle total bs).2.1 = min (k * bs) total ∧
    (writeSlices q oracle total bs).1.getLast? =
      some (.runUpdate
        { rowsFailed := some (sliceSize total bs k)
        , errorCount := some (sliceSize total bs k) }) ∧
    (∀ j q2 n2, Event.sql (.dml j q2 n2) ∈
      (writeSlices q oracle total bs).1 → j ≤ k) ∧
    (∀ j, j < k → Event.runUpdate
      { rowsProcessed := some (min ((j + 1) * bs) total)
      , progress := some (progressPctFloat (min ((j + 1) * bs) total) total)
      , message := some (processedMsg (min ((j + 1) * bs) total) total) } ∈
      (writeSlices q oracle total bs).1) := by
  unfold writeSlices
  obtain ⟨h1, h2, h3, h4, h5, h6⟩ :=
    writeSlicesAux_first_fail q oracle total bs k msg hfail hok
      (numSlices total bs) 0 0 0 (Nat.zero_le k) (by omega)
      (by rw [Nat.zero_mul, Nat.min_eq_left (Nat.zero_le total)])
  rw [Nat.zero_add] at h2 h4
  exact ⟨h1, h2, h3, h4, h5, fun j hj => h6 j (Nat.zero_le j) hj⟩

/-- Witness for C3 at 5 rows, batch size 2, slice 1 failing: slices 0 and 1
are submitted, slice 2 is not, 2 rows are counted failed, and the slice-0
progress update (2 of 5 rows, 40 percent) is persisted. -/
theorem c3_witness :
    (writeSlices (DmlQuery.insert ["id"]) c3oracle 5 2).2.2.2 =
      some (.dmlFailed "boom") ∧
    sliceSize 5 2 1 = 2 ∧
    (writeSlices (DmlQuery.insert ["id"]) c3oracle 5 2).2.2.1 = 2 ∧
    (writeSlices (DmlQuery.insert ["id"]) c3oracle 5 2).2.1 = 2 ∧
    Event.runUpdate
      { rowsProcessed := some 2, progress := some 40
      , message := some "Processed 2/5 rows" } ∈
      (writeSlices (DmlQuery.insert ["id"]) c3oracle 5 2).1 ∧
    Event.sql (.dml 2 (DmlQuery.insert ["id"]) 1) ∉
      (writeSlices (DmlQuery.insert ["id"]) c3oracle 5 2).1 := by
  have h := c3_first_slice_failure_fail_fast (DmlQuery.insert ["id"]) c3oracle
    5 2 1 "boom" (by decide) rfl
    (fun j hj => by
      interval_cases j
      rfl)
  exact ⟨h.1, by decide, by decide, by decide, by decide, by decide⟩

/-- Helper: fuel-driven bit length is exact: `2^(L-1) ≤ n < 2^L`. -/
theorem bitLenAux_zero (fuel : Nat) : bitLenAux fuel 0 = 0 := by
  cases fuel <;> rfl

theorem bitLenAux_correct :
    ∀ fuel n, n ≤ fuel → n ≠ 0 →
      2 ^ (bitLenAux fuel n - 1) ≤ n ∧ n < 2 ^ bitLenAux fuel n := by
  intro fuel
  induction fuel with
  | zero => intro n h1 h2; omega
  | succ fuel ih =>
    intro n h1 h2
    unfold bitLenAux
    rw [if_neg h2]
    by_cases hh : n / 2 = 0
    · have hn1 : n = 1 := by omega
      subst hn1
      rw [show (1 : Nat) / 2 = 0 from rfl, bitLenAux_zero]
      norm_num
    · have hle : n / 2 ≤ fuel := by omega
      obtain ⟨ih1, ih2⟩ := ih (n / 2) hle hh
      have hB1 : 1 ≤ bitLenAux fuel (n / 2) := by
        rcases Nat.eq_zero_or_pos (bitLenAux fuel (n / 2)) with h0 | h0
        · rw [h0, pow_zero] at ih2
          omega
        · exact h0
      have hp : 2 ^ bitLenAux fuel (n / 2) =
          2 * 2 ^ (bitLenAux fuel (n / 2) - 1) := by
        rw [← pow_succ']
        congr 1
        omega
      have hq : 2 ^ (bitLenAux fuel (n / 2) + 1) =
          2 * 2 ^ bitLenAux fuel (n / 2) := by
        rw [pow_succ']
      constructor
      · have he : bitLenAux fuel (n / 2) + 1 - 1 = bitLenAux fuel (n / 2) := by
          omega
        rw [he, hp]
        omega
      · rw [hq]
        omega

theorem bitLen_correct (n : Nat) (h : n ≠ 0) :
    2 ^ (bitLen n - 1) ≤ n ∧ n < 2 ^ bitLen n :=
  bitLenAux_correct n n le_rfl h

theorem bitLen_pos (n : Nat) (h : n ≠ 0) : 1 ≤ bitLen n := by
  obtain ⟨h1, h2⟩ := bitLen_correct n h
  rcases Nat.eq_zero_or_pos (bitLen n) with h0 | h0
  · rw [h0, pow_zero] at h2
    omega
  · exact h0

theorem sigPair_pos_eq (num den : Nat) (j : Nat)
    (h : 52 - floorLog2Q num den = (j : Int)) :
    sigPair num den = (num * 2 ^ j, den) := by
  unfold sigPair
  simp only []
  rw [h, if_pos (Int.natCast_nonneg j), Int.toNat_natCast]

theorem sigPair_neg_eq (num den : Nat) (j : Nat) (hj : j ≠ 0)
    (h : 52 - floorLog2Q num den = -(j : Int)) :
    sigPair num den = (num, den * 2 ^ j) := by
  unfold sigPair
  simp only []
  rw [h, if_neg (by omega)]
  have h2 : (-(-(j : Int))).toNat = j := by omega
  rw [h2]

theorem sigPair_spec (num den : Nat) (hn : num ≠ 0) (hd : den ≠ 0) :
    (sigPair num den).2 ≠ 0 ∧
    (sigPair num den).2 * 2 ^ 52 ≤ (sigPair num den).1 ∧
    (sigPair num den).1 < (sigPair num den).2 * 2 ^ 53 := by
  obtain ⟨hnl, hnu⟩ := bitLen_correct num hn
  obtain ⟨hdl, hdu⟩ := bitLen_correct den hd
  have hn1 := bitLen_pos num hn
  have hd1 := bitLen_pos den hd
  by_cases hLL : bitLen den ≤ bitLen num
  · by_cases hge : den * 2 ^ (bitLen num - bitLen den) ≤ num
    · have hk : floorLog2Q num den =
          ((bitLen num - bitLen den : Nat) : Int) := by
        unfold floorLog2Q
        simp only []
        rw [if_pos hLL, if_pos hge]
      have hup : num < den * 2 ^ (bitLen num - bitLen den + 1) := by
        calc num < 2 ^ bitLen num := hnu
          _ = 2 ^ (bitLen num - bitLen den + 1) * 2 ^ (bitLen den - 1) := by
              rw [← pow_add]; congr 1; omega
          _ ≤ 2 ^ (bitLen num - bitLen den + 1) * den :=
              Nat.mul_le_mul_left _ hdl
          _ = den * 2 ^ (bitLen num - bitLen den + 1) := Nat.mul_comm _ _
      by_cases h52 : bitLen num - bitLen den ≤ 52
      · rw [sigPair_pos_eq num den (52 - (bitLen num - bitLen den))
          (by rw [hk]; omega)]
        refine ⟨hd, ?_, ?_⟩
        · calc den * 2 ^ 52
              = den * 2 ^ (bitLen num - bitLen den) *
                2 ^ (52 - (bitLen num - bitLen den)) := by
                rw [Nat.mul_assoc, ← pow_add]; congr 2; omega
            _ ≤ num * 2 ^ (52 - (bitLen num - bitLen den)) :=
                Nat.mul_le_mul_right _ hge
        · calc num * 2 ^ (52 - (bitLen num - bitLen den))
              < den * 2 ^ (bitLen num - bitLen den + 1) *
                2 ^ (52 - (bitLen num - bitLen den)) :=
                (Nat.mul_lt_mul_right (pow_pos two_pos _)).mpr hup
            _ = den * 2 ^ 53 := by
                rw [Nat.mul_assoc, ← pow_add]; congr 2; omega
      · rw [sigPair_neg_eq num den (bitLen num - bitLen den - 52)
          (by omega) (by rw [hk]; omega)]
        refine ⟨Nat.mul_ne_zero hd (pow_pos two_pos _).ne', ?_, ?_⟩
        · calc den * 2 ^ (bitLen num - bitLen den - 52) * 2 ^ 52
              = den * 2 ^ (bitLen num - bitLen den) := by
                rw [Nat.mul_assoc, ← pow_add]; congr 2; omega
            _ ≤ num := hge
        · calc num < den * 2 ^ (bitLen num - bitLen den + 1) := hup
            _ = den * 2 ^ (bitLen num - bitLen den - 52) * 2 ^ 53 := by
                rw [Nat.mul_assoc, ← pow_add]; congr 2; omega
    · have hk : floorLog2Q num den =
          ((bitLen num - bitLen den : Nat) : Int) - 1 := by
        unfold floorLog2Q
        simp only []
        rw [if_pos hLL, if_neg hge]
      have hup : num < den * 2 ^ (bitLen num - bitLen den) :=
        Nat.lt_of_not_le hge
      have hlow : 1 ≤ bitLen num - bitLen den →
          den * 2 ^ (bitLen num - bitLen den - 1) ≤ num := by
        intro h1
        have hlt : den * 2 ^ (bitLen num - bitLen den - 1) <
            2 ^ (bitLen num - 1) := by
          calc den * 2 ^ (bitLen num - bitLen den - 1)
              < 2 ^ bitLen den * 2 ^ (bitLen num - bitLen den - 1) :=
                (Nat.mul_lt_mul_right (pow_pos two_pos _)).mpr hdu
            _ = 2 ^ (bitLen num - 1) := by rw [← pow_add]; congr 1; omega
        exact le_trans (Nat.le_of_lt hlt) hnl
      by_cases hdn0 : bitLen num - bitLen den = 0
      · rw [sigPair_pos_eq num den 53 (by rw [hk, hdn0]; omega)]
        have hLne : bitLen num = bitLen den := by omega
        have hupp : num < den := by
          have := hup
          rw [hdn0, pow_zero, Nat.mul_one] at this
          exact this
        have hdle : den ≤ 2 * num := by
          have : den < 2 * num := by
            calc den < 2 ^ bitLen den := hdu
              _ = 2 * 2 ^ (bitLen num - 1) := by
                  rw [← pow_succ']; congr 1; omega
              _ ≤ 2 * num := Nat.mul_le_mul_left _ hnl
          exact Nat.le_of_lt this
        refine ⟨hd, ?_, ?_⟩
        · calc den * 2 ^ 52 ≤ 2 * num * 2 ^ 52 :=
              Nat.mul_le_mul_right _ hdle
            _ = num * 2 ^ 53 := by
                rw [Nat.mul_comm 2 num, Nat.mul_assoc, ← pow_succ']
        · exact (Nat.mul_lt_mul_right (pow_pos two_pos _)).mpr hupp
      · by_cases h53 : bitLen num - bitLen den ≤ 53
        · rw [sigPair_pos_eq num den (53 - (bitLen num - bitLen den))
            (by rw [hk]; omega)]
          refine ⟨hd, ?_, ?_⟩
          · calc den * 2 ^ 52
                = den * 2 ^ (bitLen num - bitLen den - 1) *
                  2 ^ (53 - (bitLen num - bitLen den)) := by
                  rw [Nat.mul_assoc, ← pow_add]; congr 2; omega
              _ ≤ num * 2 ^ (53 - (bitLen num - bitLen den)) :=
                  Nat.mul_le_mul_right _ (hlow (by omega))
          · calc num * 2 ^ (53 - (bitLen num - bitLen den))
                < den * 2 ^ (bitLen num - bitLen den) *
                  2 ^ (53 - (bitLen num - bitLen den)) :=
                  (Nat.mul_lt_mul_right (pow_pos two_pos _)).mpr hup
              _ = den * 2 ^ 53 := by
                  rw [Nat.mul_assoc, ← pow_add]; congr 2; omega
        · rw [sigPair_neg_eq num den (bitLen num - bitLen den - 53)
            (by omega) (by rw [hk]; omega)]
          refine ⟨Nat.mul_ne_zero hd (pow_pos two_pos _).ne', ?_, ?_⟩
          · calc den * 2 ^ (bitLen num - bitLen den - 53) * 2 ^ 52
                = den * 2 ^ (bitLen num - bitLen den - 1) := by
                  rw [Nat.mul_assoc, ← pow_add]; congr 2; omega
              _ ≤ num := hlow (by omega)
          · calc num < den * 2 ^ (bitLen num - bitLen den) := hup
              _ = den * 2 ^ (bitLen num - bitLen den - 53) * 2 ^ 53 := by
                  rw [Nat.mul_assoc, ← pow_add]; congr 2; omega
  · have hLd : bitLen num < bitLen den := Nat.lt_of_not_le hLL
    by_cases hge : den ≤ num * 2 ^ (bitLen den - bitLen num)
    · have hk : floorLog2Q num den =
          -((bitLen den - bitLen num : Nat) : Int) := by
        unfold floorLog2Q
        simp only []
        rw [if_neg hLL, if_pos hge]
      have hup : num * 2 ^ (bitLen den - bitLen num) < 2 * den := by
        calc num * 2 ^ (bitLen den - bitLen num)
            < 2 ^ bitLen num * 2 ^ (bitLen den - bitLen num) :=
              (Nat.mul_lt_mul_right (pow_pos two_pos _)).mpr hnu
          _ = 2 * 2 ^ (bitLen den - 1) := by
              rw [← pow_add, ← pow_succ']; congr 1; omega
          _ ≤ 2 * den := Nat.mul_le_mul_left _ hdl
      rw [sigPair_pos_eq num den (52 + (bitLen den - bitLen num))
        (by rw [hk]; omega)]
      refine ⟨hd, ?_, ?_⟩
      · calc den * 2 ^ 52 ≤ num * 2 ^ (bitLen den - bitLen num) * 2 ^ 52 :=
            Nat.mul_le_mul_right _ hge
          _ = num * 2 ^ (52 + (bitLen den - bitLen num)) := by
            rw [Nat.mul_assoc, ← pow_add]; congr 2; omega
      · calc num * 2 ^ (52 + (bitLen den - bitLen num))
            = num * 2 ^ (bitLen den - bitLen num) * 2 ^ 52 := by
              rw [Nat.mul_assoc, ← pow_add]; congr 2; omega
          _ < 2 * den * 2 ^ 52 :=
              (Nat.mul_lt_mul_right (pow_pos two_pos _)).mpr hup
          _ = den * 2 ^ 53 := by
              rw [Nat.mul_comm 2 den, Nat.mul_assoc, ← pow_succ']
    · have hk : floorLog2Q num den =
          -((bitLen den - bitLen num : Nat) : Int) - 1 := by
        unfold floorLog2Q
        simp only []
        rw [if_neg hLL, if_neg hge]
      have hup : num * 2 ^ (bitLen den - bitLen num) < den :=
        Nat.lt_of_not_le hge
      have hlow : den ≤ num * 2 ^ (bitLen den - bitLen num + 1) := by
        have hlt : den < num * 2 ^ (bitLen den - bitLen num + 1) + 1 := by
          calc den < 2 ^ bitLen den := hdu
            _ = 2 ^ (bitLen den - bitLen num + 1) * 2 ^ (bitLen num - 1) := by
                rw [← pow_add]; congr 1; omega
            _ ≤ 2 ^ (bitLen den - bitLen num + 1) * num :=
                Nat.mul_le_mul_left _ hnl
            _ = num * 2 ^ (bitLen den - bitLen num + 1) := Nat.mul_comm _ _
            _ < num * 2 ^ (bitLen den - bitLen num + 1) + 1 := Nat.lt_succ_self _
        omega
      rw [sigPair_pos_eq num den (53 + (bitLen den - bitLen num))
        (by rw [hk]; omega)]
      refine ⟨hd, ?_, ?_⟩
      · calc den * 2 ^ 52 ≤ num * 2 ^ (bitLen den - bitLen num + 1) * 2 ^ 52 :=
            Nat.mul_le_mul_right _ hlow
          _ = num * 2 ^ (53 + (bitLen den - bitLen num)) := by
            rw [Nat.mul_assoc, ← pow_add]; congr 2; omega
      · calc num * 2 ^ (53 + (bitLen den - bitLen num))
            = num * 2 ^ (bitLen den - bitLen num) * 2 ^ 53 := by
              rw [Nat.mul_assoc, ← pow_add]; congr 2; omega
          _ < den * 2 ^ 53 :=
              (Nat.mul_lt_mul_right (pow_pos two_pos _)).mpr hup

theorem rne_ge (a b : Nat) : a / b ≤ rne a b := by
  unfold rne
  simp only []
  split
  · exact le_rfl
  · split
    · exact Nat.le_succ _
    · split
      · exact le_rfl
      · exact Nat.le_succ _

theorem rne_le (a b : Nat) : rne a b ≤ a / b + 1 := by
  unfold rne
  simp only []
  split
  · exact Nat.le_succ _
  · split
    · exact le_rfl
    · split
      · exact Nat.le_succ _
      · exact le_rfl

theorem rne_mono (a b a2 b2 : Nat) (hb : 0 < b) (hb2 : 0 < b2)
    (h : a * b2 ≤ a2 * b) : rne a b ≤ rne a2 b2 := by
  have hq : a / b ≤ a2 / b2 := by
    rw [Nat.le_div_iff_mul_le hb2]
    have h1 : a / b * b2 * b ≤ a2 * b := by
      calc a / b * b2 * b = a / b * b * b2 := by ring
        _ ≤ a * b2 := Nat.mul_le_mul_right _ (Nat.div_mul_le_self a b)
        _ ≤ a2 * b := h
    exact Nat.le_of_mul_le_mul_right h1 hb
  rcases Nat.lt_or_ge (a / b) (a2 / b2) with hlt | hge2
  · calc rne a b ≤ a / b + 1 := rne_le a b
      _ ≤ a2 / b2 := hlt
      _ ≤ rne a2 b2 := rne_ge a2 b2
  · have heq : a / b = a2 / b2 := Nat.le_antisymm hq hge2
    have e1 : b * (a / b) + a % b = a := Nat.div_add_mod a b
    have e2 : b2 * (a2 / b2) + a2 % b2 = a2 := Nat.div_add_mod a2 b2
    have key : a % b * b2 ≤ a2 % b2 * b := by
      have h2 : (b * (a / b) + a % b) * b2 ≤
          (b2 * (a2 / b2) + a2 % b2) * b := by
        rw [e1, e2]
        exact h
      rw [heq] at h2
      rw [Nat.add_mul, Nat.add_mul] at h2
      have hc : b * (a2 / b2) * b2 = b2 * (a2 / b2) * b := by ring
      rw [hc] at h2
      exact Nat.le_of_add_le_add_left h2
    rcases Nat.lt_or_ge (2 * (a % b)) b with c1 | c1
    · have hv : rne a b = a / b := by
        unfold rne
        simp only []
        rw [if_pos c1]
      rw [hv, heq]
      exact rne_ge a2 b2
    · have hnb2 : ¬ 2 * (a2 % b2) < b2 := by
        intro hc
        have k1 : 2 * (a % b) * b2 ≤ 2 * (a2 % b2) * b := by
          calc 2 * (a % b) * b2 = 2 * (a % b * b2) := by ring
            _ ≤ 2 * (a2 % b2 * b) := Nat.mul_le_mul_left _ key
            _ = 2 * (a2 % b2) * b := by ring
        have k2 : 2 * (a2 % b2) * b < b2 * b :=
          (Nat.mul_lt_mul_right hb).mpr hc
        have k3 : 2 * (a % b) * b2 < b * b2 := by
          calc 2 * (a % b) * b2 ≤ 2 * (a2 % b2) * b := k1
            _ < b2 * b := k2
            _ = b * b2 := Nat.mul_comm _ _
        have k4 := lt_of_mul_lt_mul_right k3 (Nat.zero_le b2)
        omega
      rcases Nat.lt_or_ge b2 (2 * (a2 % b2)) with c2 | c2
      · have hv2 : rne a2 b2 = a2 / b2 + 1 := by
          unfold rne
          simp only []
          rw [if_neg hnb2, if_pos c2]
        rw [hv2, ← heq]
        exact rne_le a b
      · have hteq2 : 2 * (a2 % b2) = b2 := by omega
        have hteq1 : 2 * (a % b) = b := by
          rcases Nat.lt_or_ge b (2 * (a % b)) with c3 | c3
          · exfalso
            have k1 : b * b2 < 2 * (a % b) * b2 :=
              (Nat.mul_lt_mul_right hb2).mpr c3
            have k2 : 2 * (a % b) * b2 ≤ 2 * (a2 % b2) * b := by
              calc 2 * (a % b) * b2 = 2 * (a % b * b2) := by ring
                _ ≤ 2 * (a2 % b2 * b) := Nat.mul_le_mul_left _ key
                _ = 2 * (a2 % b2) * b := by ring
            rw [hteq2] at k2
            have hcm : b * b2 = b2 * b := Nat.mul_comm _ _
            omega
          · omega
        have hv1 : rne a b =
            if a / b % 2 = 0 then a / b else a / b + 1 := by
          unfold rne
          simp only []
          rw [if_neg (by omega), if_neg (by omega)]
        have hv2 : rne a2 b2 =
            if a2 / b2 % 2 = 0 then a2 / b2 else a2 / b2 + 1 := by
          unfold rne
          simp only []
          rw [if_neg (by omega), if_neg (by omega)]
        rw [hv1, hv2, heq]

theorem mSig_bounds (num den : Nat) (hn : num ≠ 0) (hd : den ≠ 0) :
    2 ^ 52 ≤ mSig num den ∧ mSig num den ≤ 2 ^ 53 := by
  obtain ⟨hb0, hlo, hhi⟩ := sigPair_spec num den hn hd
  have hbpos : 0 < (sigPair num den).2 := Nat.pos_of_ne_zero hb0
  have hdivlo : 2 ^ 52 ≤ (sigPair num den).1 / (sigPair num den).2 := by
    rw [Nat.le_div_iff_mul_le hbpos]
    calc 2 ^ 52 * (sigPair num den).2
        = (sigPair num den).2 * 2 ^ 52 := Nat.mul_comm _ _
      _ ≤ (sigPair num den).1 := hlo
  have hdivhi : (sigPair num den).1 / (sigPair num den).2 < 2 ^ 53 := by
    rw [Nat.div_lt_iff_lt_mul hbpos]
    calc (sigPair num den).1 < (sigPair num den).2 * 2 ^ 53 := hhi
      _ = 2 ^ 53 * (sigPair num den).2 := Nat.mul_comm _ _
  have hge := rne_ge (sigPair num den).1 (sigPair num den).2
  have hle := rne_le (sigPair num den).1 (sigPair num den).2
  unfold mSig
  omega

theorem sigPair_val (num den : Nat) (hd : den ≠ 0) :
    ((sigPair num den).1 : ℚ) / ((sigPair num den).2 : ℚ) =
      ((num : ℚ) / den) * 2 ^ ((52 : Int) - floorLog2Q num den) := by
  have hdQ : ((den : ℚ)) ≠ 0 := Nat.cast_ne_zero.mpr hd
  unfold sigPair
  simp only []
  split
  case isTrue ht =>
    simp only []
    rw [← Int.toNat_of_nonneg ht, zpow_natCast]
    push_cast
    field_simp
  case isFalse ht =>
    simp only []
    set s := (-(52 - floorLog2Q num den)).toNat with hs
    have ht2 : (52 : Int) - floorLog2Q num den = -(s : Int) := by
      rw [hs]
      omega
    rw [ht2, zpow_neg, zpow_natCast]
    have hcast : ((den * 2 ^ s : ℕ) : ℚ) = (den : ℚ) * 2 ^ s := by
      push_cast
      ring
    rw [hcast, div_mul_eq_div_div, div_eq_mul_inv]

theorem ratio_bounds (num den : Nat) (hn : num ≠ 0) (hd : den ≠ 0) :
    (2 : ℚ) ^ floorLog2Q num den ≤ (num : ℚ) / den ∧
    (num : ℚ) / den < 2 ^ (floorLog2Q num den + 1) := by
  have hz : ∀ z : Int, (0 : ℚ) < 2 ^ z := fun z => zpow_pos two_pos z
  obtain ⟨hb0, hlo, hhi⟩ := sigPair_spec num den hn hd
  have hbQ : (0 : ℚ) < ((sigPair num den).2 : ℚ) := by
    exact_mod_cast Nat.pos_of_ne_zero hb0
  have hval := sigPair_val num den hd
  have hlo2 : (2 : ℚ) ^ (52 : ℕ) ≤
      (num : ℚ) / den * 2 ^ ((52 : Int) - floorLog2Q num den) := by
    rw [← hval, le_div_iff₀ hbQ]
    calc (2 : ℚ) ^ (52 : ℕ) * ((sigPair num den).2 : ℚ)
        = (((sigPair num den).2 * 2 ^ 52 : ℕ) : ℚ) := by push_cast; ring
      _ ≤ ((sigPair num den).1 : ℚ) := by exact_mod_cast hlo
  have hhi2 : (num : ℚ) / den * 2 ^ ((52 : Int) - floorLog2Q num den) <
      (2 : ℚ) ^ (53 : ℕ) := by
    rw [← hval, div_lt_iff₀ hbQ]
    calc ((sigPair num den).1 : ℚ)
        < (((sigPair num den).2 * 2 ^ 53 : ℕ) : ℚ) := by exact_mod_cast hhi
      _ = (2 : ℚ) ^ (53 : ℕ) * ((sigPair num den).2 : ℚ) := by
          push_cast; ring
  constructor
  · have h3 := mul_le_mul_of_nonneg_right hlo2
      (hz (floorLog2Q num den - 52)).le
    calc (2 : ℚ) ^ floorLog2Q num den
        = (2 : ℚ) ^ (52 : ℕ) * 2 ^ (floorLog2Q num den - 52) := by
          rw [← zpow_natCast (2 : ℚ) 52, ← zpow_add₀ two_ne_zero]
          congr 1
          push_cast
          ring
      _ ≤ (num : ℚ) / den * 2 ^ ((52 : Int) - floorLog2Q num den) *
          2 ^ (floorLog2Q num den - 52) := h3
      _ = (num : ℚ) / den := by
          rw [mul_assoc, ← zpow_add₀ two_ne_zero]
          rw [show (52 : Int) - floorLog2Q num den +
            (floorLog2Q num den - 52) = 0 by ring]
          rw [zpow_zero, mul_one]
  · have h3 := mul_lt_mul_of_pos_right hhi2 (hz (floorLog2Q num den - 52))
    calc (num : ℚ) / den
        = (num : ℚ) / den * 2 ^ ((52 : Int) - floorLog2Q num den) *
          2 ^ (floorLog2Q num den - 52) := by
          rw [mul_assoc, ← zpow_add₀ two_ne_zero]
          rw [show (52 : Int) - floorLog2Q num den +
            (floorLog2Q num den - 52) = 0 by ring]
          rw [zpow_zero, mul_one]
      _ < (2 : ℚ) ^ (53 : ℕ) * 2 ^ (floorLog2Q num den - 52) := h3
      _ = 2 ^ (floorLog2Q num den + 1) := by
          rw [← zpow_natCast (2 : ℚ) 53, ← zpow_add₀ two_ne_zero]
          congr 1
          push_cast
          ring

theorem roundQ_val_eq (num den : Nat) :
    valQ (roundQ num den) =
      (mSig num den : ℚ) * 2 ^ (floorLog2Q num den - 52) := by
  unfold roundQ valQ
  simp only []
  split
  case isTrue hm =>
    rw [hm]
    simp only [Nat.cast_pow, Nat.cast_ofNat]
    rw [← zpow_natCast (2 : ℚ) 52, ← zpow_natCast (2 : ℚ) 53,
      ← zpow_add₀ (two_ne_zero : (2 : ℚ) ≠ 0),
      ← zpow_add₀ (two_ne_zero : (2 : ℚ) ≠ 0)]
    congr 1
    push_cast
    ring
  case isFalse hm => rfl

theorem roundQ_mono_scaled (n1 d1 n2 d2 : Nat) (E1 E2 : Int)
    (hn1 : n1 ≠ 0) (hd1 : d1 ≠ 0) (hn2 : n2 ≠ 0) (hd2 : d2 ≠ 0)
    (h : (n1 : ℚ) / d1 * 2 ^ E1 ≤ (n2 : ℚ) / d2 * 2 ^ E2) :
    valQ (roundQ n1 d1) * 2 ^ E1 ≤ valQ (roundQ n2 d2) * 2 ^ E2 := by
  have hz : ∀ z : Int, (0 : ℚ) < 2 ^ z := fun z => zpow_pos two_pos z
  obtain ⟨hr1lo, hr1hi⟩ := ratio_bounds n1 d1 hn1 hd1
  obtain ⟨hr2lo, hr2hi⟩ := ratio_bounds n2 d2 hn2 hd2
  obtain ⟨hm1lo, hm1hi⟩ := mSig_bounds n1 d1 hn1 hd1
  obtain ⟨hm2lo, hm2hi⟩ := mSig_bounds n2 d2 hn2 hd2
  have hke : floorLog2Q n1 d1 + E1 ≤ floorLog2Q n2 d2 + E2 := by
    by_contra hc
    push_neg at hc
    have c1 : (n2 : ℚ) / d2 * 2 ^ E2 <
        2 ^ (floorLog2Q n2 d2 + 1 + E2) := by
      calc (n2 : ℚ) / d2 * 2 ^ E2 < 2 ^ (floorLog2Q n2 d2 + 1) * 2 ^ E2 :=
          mul_lt_mul_of_pos_right hr2hi (hz E2)
        _ = 2 ^ (floorLog2Q n2 d2 + 1 + E2) := by
            rw [← zpow_add₀ (two_ne_zero : (2 : ℚ) ≠ 0)]
    have c2 : (2 : ℚ) ^ (floorLog2Q n2 d2 + 1 + E2) ≤
        2 ^ (floorLog2Q n1 d1 + E1) := by
      apply zpow_le_zpow_right₀ one_le_two
      omega
    have c3 : (2 : ℚ) ^ (floorLog2Q n1 d1 + E1) ≤
        (n1 : ℚ) / d1 * 2 ^ E1 := by
      calc (2 : ℚ) ^ (floorLog2Q n1 d1 + E1)
          = 2 ^ floorLog2Q n1 d1 * 2 ^ E1 :=
            zpow_add₀ (two_ne_zero : (2 : ℚ) ≠ 0) _ _
        _ ≤ (n1 : ℚ) / d1 * 2 ^ E1 :=
            mul_le_mul_of_nonneg_right hr1lo (hz E1).le
    linarith
  rw [roundQ_val_eq, roundQ_val_eq]
  rcases eq_or_lt_of_le hke with heq | hlt
  · obtain ⟨hb1ne, -, -⟩ := sigPair_spec n1 d1 hn1 hd1
    obtain ⟨hb2ne, -, -⟩ := sigPair_spec n2 d2 hn2 hd2
    have hQle : ((sigPair n1 d1).1 : ℚ) / ((sigPair n1 d1).2 : ℚ) ≤
        ((sigPair n2 d2).1 : ℚ) / ((sigPair n2 d2).2 : ℚ) := by
      rw [sigPair_val n1 d1 hd1, sigPair_val n2 d2 hd2]
      have hc : (52 : Int) - floorLog2Q n1 d1 - E1 =
          52 - floorLog2Q n2 d2 - E2 := by omega
      calc (n1 : ℚ) / d1 * 2 ^ ((52 : Int) - floorLog2Q n1 d1)
          = (n1 : ℚ) / d1 * 2 ^ E1 *
            2 ^ ((52 : Int) - floorLog2Q n1 d1 - E1) := by
            rw [mul_assoc, ← zpow_add₀ (two_ne_zero : (2 : ℚ) ≠ 0)]
            congr 1
            ring
        _ ≤ (n2 : ℚ) / d2 * 2 ^ E2 *
            2 ^ ((52 : Int) - floorLog2Q n1 d1 - E1) :=
            mul_le_mul_of_nonneg_right h (hz _).le
        _ = (n2 : ℚ) / d2 * 2 ^ ((52 : Int) - floorLog2Q n2 d2) := by
            rw [hc, mul_assoc, ← zpow_add₀ (two_ne_zero : (2 : ℚ) ≠ 0)]
            congr 1
            ring
    have hb1pos : (0 : ℚ) < ((sigPair n1 d1).2 : ℚ) := by
      exact_mod_cast Nat.pos_of_ne_zero hb1ne
    have hb2pos : (0 : ℚ) < ((sigPair n2 d2).2 : ℚ) := by
      exact_mod_cast Nat.pos_of_ne_zero hb2ne
    have hcross : (sigPair n1 d1).1 * (sigPair n2 d2).2 ≤
        (sigPair n2 d2).1 * (sigPair n1 d1).2 := by
      have h2 := (div_le_div_iff₀ hb1pos hb2pos).mp hQle
      exact_mod_cast h2
    have hm : mSig n1 d1 ≤ mSig n2 d2 :=
      rne_mono _ _ _ _ (Nat.pos_of_ne_zero hb1ne)
        (Nat.pos_of_ne_zero hb2ne) hcross
    calc (mSig n1 d1 : ℚ) * 2 ^ (floorLog2Q n1 d1 - 52) * 2 ^ E1
        = (mSig n1 d1 : ℚ) * 2 ^ (floorLog2Q n1 d1 - 52 + E1) := by
          rw [mul_assoc, ← zpow_add₀ (two_ne_zero : (2 : ℚ) ≠ 0)]
      _ ≤ (mSig n2 d2 : ℚ) * 2 ^ (floorLog2Q n1 d1 - 52 + E1) :=
          mul_le_mul_of_nonneg_right (by exact_mod_cast hm) (hz _).le
      _ = (mSig n2 d2 : ℚ) * 2 ^ (floorLog2Q n2 d2 - 52) * 2 ^ E2 := by
          rw [mul_assoc, ← zpow_add₀ (two_ne_zero : (2 : ℚ) ≠ 0)]
          congr 2
          omega
  · calc (mSig n1 d1 : ℚ) * 2 ^ (floorLog2Q n1 d1 - 52) * 2 ^ E1
        ≤ (2 : ℚ) ^ (53 : ℕ) * 2 ^ (floorLog2Q n1 d1 - 52) * 2 ^ E1 := by
          apply mul_le_mul_of_nonneg_right _ (hz E1).le
          apply mul_le_mul_of_nonneg_right _ (hz _).le
          exact_mod_cast hm1hi
      _ = 2 ^ (floorLog2Q n1 d1 + E1 + 1) := by
          rw [← zpow_natCast (2 : ℚ) 53, mul_assoc,
            ← zpow_add₀ (two_ne_zero : (2 : ℚ) ≠ 0),
            ← zpow_add₀ (two_ne_zero : (2 : ℚ) ≠ 0)]
          congr 1
          push_cast
          ring
      _ ≤ 2 ^ (floorLog2Q n2 d2 + E2) := by
          apply zpow_le_zpow_right₀ one_le_two
          omega
      _ = (2 : ℚ) ^ (52 : ℕ) * 2 ^ (floorLog2Q n2 d2 - 52) * 2 ^ E2 := by
          rw [← zpow_natCast (2 : ℚ) 52, mul_assoc,
            ← zpow_add₀ (two_ne_zero : (2 : ℚ) ≠ 0),
            ← zpow_add₀ (two_ne_zero : (2 : ℚ) ≠ 0)]
          congr 1
          push_cast
          ring
      _ ≤ (mSig n2 d2 : ℚ) * 2 ^ (floorLog2Q n2 d2 - 52) * 2 ^ E2 := by
          apply mul_le_mul_of_nonneg_right _ (hz E2).le
          apply mul_le_mul_of_nonneg_right _ (hz _).le
          exact_mod_cast hm2lo

theorem roundQ_fst_lb (num den : Nat) (hn : num ≠ 0) (hd : den ≠ 0) :
    2 ^ 52 ≤ (roundQ num den).1 := by
  obtain ⟨hlo, hhi⟩ := mSig_bounds num den hn hd
  unfold roundQ
  simp only []
  split
  · exact le_rfl
  · exact hlo

theorem valQ_floatMul100 (d : Nat × Int) :
    valQ (floatMul100 d) = valQ (roundQ (d.1 * 100) 1) * 2 ^ d.2 := by
  unfold floatMul100 valQ
  simp only []
  rw [zpow_add₀ (two_ne_zero : (2 : ℚ) ≠ 0)]
  ring

theorem floatTruncNat_eq_floor (d : Nat × Int) :
    floatTruncNat d = Nat.floor (valQ d) := by
  unfold floatTruncNat valQ
  split
  case isTrue ht =>
    set t := d.2.toNat with hts
    have ht2 : d.2 = (t : Int) := by
      rw [hts]
      omega
    rw [ht2, zpow_natCast]
    rw [show ((d.1 : ℚ) * 2 ^ t) = ((d.1 * 2 ^ t : ℕ) : ℚ) by push_cast; ring]
    rw [Nat.floor_natCast]
  case isFalse ht =>
    set s := (-d.2).toNat with hs
    have ht2 : d.2 = -(s : Int) := by
      rw [hs]
      omega
    rw [ht2, zpow_neg, zpow_natCast]
    rw [show ((d.1 : ℚ) * ((2 : ℚ) ^ s)⁻¹) = (d.1 : ℚ) / ((2 ^ s : ℕ) : ℚ) by
      push_cast; rw [div_eq_mul_inv]]
    rw [Nat.floor_div_nat, Nat.floor_natCast]

theorem progressPctFloat_mono (total : Nat) (ht : total ≠ 0) {a b : Nat}
    (h : a ≤ b) : progressPctFloat a total ≤ progressPctFloat b total := by
  by_cases ha : a = 0
  · unfold progressPctFloat
    rw [if_pos ha]
    exact Nat.zero_le _
  · have hb : b ≠ 0 := by omega
    unfold progressPctFloat
    rw [if_neg ha, if_neg hb]
    rw [floatTruncNat_eq_floor, floatTruncNat_eq_floor]
    apply Nat.floor_mono
    rw [valQ_floatMul100, valQ_floatMul100]
    have htQ : (0 : ℚ) < total := by
      exact_mod_cast Nat.pos_of_ne_zero ht
    have hstep1 : valQ (roundQ a total) ≤ valQ (roundQ b total) := by
      have hq : (a : ℚ) / total ≤ (b : ℚ) / total := by
        rw [div_le_div_iff₀ htQ htQ]
        have hab : (a : ℚ) ≤ b := by exact_mod_cast h
        exact mul_le_mul_of_nonneg_right hab htQ.le
      have h2 := roundQ_mono_scaled a total b total 0 0 ha ht hb ht
        (by simpa using hq)
      simpa using h2
    have hm1 : (2 : Nat) ^ 52 ≤ (roundQ a total).1 := roundQ_fst_lb a total ha ht
    have hm2 : (2 : Nat) ^ 52 ≤ (roundQ b total).1 := roundQ_fst_lb b total hb ht
    have hp1 : 0 < (roundQ a total).1 := lt_of_lt_of_le (pow_pos two_pos 52) hm1
    have hp2 : 0 < (roundQ b total).1 := lt_of_lt_of_le (pow_pos two_pos 52) hm2
    have hne1 : (roundQ a total).1 * 100 ≠ 0 :=
      Nat.mul_ne_zero hp1.ne' (by omega)
    have hne2 : (roundQ b total).1 * 100 ≠ 0 :=
      Nat.mul_ne_zero hp2.ne' (by omega)
    have h100 := mul_le_mul_of_nonneg_right hstep1
      (by norm_num : (0 : ℚ) ≤ 100)
    apply roundQ_mono_scaled _ 1 _ 1 (roundQ a total).2 (roundQ b total).2
      hne1 one_ne_zero hne2 one_ne_zero
    calc (((roundQ a total).1 * 100 : ℕ) : ℚ) / (1 : ℕ) * 2 ^ (roundQ a total).2
        = valQ (roundQ a total) * 100 := by
          unfold valQ
          push_cast
          ring
      _ ≤ valQ (roundQ b total) * 100 := h100
      _ = (((roundQ b total).1 * 100 : ℕ) : ℚ) / (1 : ℕ) * 2 ^ (roundQ b total).2 := by
          unfold valQ
          push_cast
          ring

theorem roundQ_self (n : Nat) (hn : n ≠ 0) : roundQ n n = (2 ^ 52, -52) := by
  have hk : floorLog2Q n n = 0 := by
    unfold floorLog2Q
    rw [if_pos le_rfl]
    simp only []
    rw [Nat.sub_self, pow_zero, Nat.mul_one, if_pos le_rfl]
    exact Nat.cast_zero
  have hsp : sigPair n n = (n * 2 ^ 52, n) :=
    sigPair_pos_eq n n 52 (by rw [hk]; omega)
  have hm : mSig n n = 2 ^ 52 := by
    unfold mSig
    rw [hsp]
    simp only []
    unfold rne
    simp only []
    have hq : n * 2 ^ 52 / n = 2 ^ 52 :=
      Nat.mul_div_cancel_left (2 ^ 52) (Nat.pos_of_ne_zero hn)
    have hr : n * 2 ^ 52 % n = 0 := Nat.mul_mod_right n (2 ^ 52)
    rw [hq, hr]
    have hpos := Nat.pos_of_ne_zero hn
    rw [if_pos (by omega)]
  unfold roundQ
  simp only []
  rw [hm, hk]
  rw [if_neg (by norm_num)]
  norm_num

theorem progressPctFloat_self (n : Nat) (hn : n ≠ 0) :
    progressPctFloat n n = 100 := by
  unfold progressPctFloat
  rw [if_neg hn, roundQ_self n hn]
  decide

theorem progressPctFloat_le_100 (rp total : Nat) (h : rp ≤ total) :
    progressPctFloat rp total ≤ 100 := by
  by_cases hz : rp = 0
  · unfold progressPctFloat
    rw [if_pos hz]
    omega
  · have ht : total ≠ 0 := by omega
    calc progressPctFloat rp total ≤ progressPctFloat total total :=
        progressPctFloat_mono total ht h
      _ = 100 := progressPctFloat_self total ht

/-- Helper: persisted percentages are non-decreasing along the slice loop,
and all of them dominate the entry percentage. -/
theorem writeSlicesAux_progress_chain (q : DmlQuery) (oracle : SqlOracle)
    (total bs : Nat) (htot : total ≠ 0) :
    ∀ n i rp rf,
      List.Chain' (· ≤ ·)
        (progressValues (writeSlicesAux q oracle total bs n i rp rf).1) ∧
      ∀ p ∈ progressValues (writeSlicesAux q oracle total bs n i rp rf).1,
        progressPctFloat rp total ≤ p := by
  intro n
  induction n with
  | zero =>
    intro i rp rf
    exact ⟨List.chain'_nil, fun p hp => absurd hp (List.not_mem_nil p)⟩
  | succ n ih =>
    intro i rp rf
    unfold writeSlicesAux
    simp only []
    cases hf : oracle.sqlFail (SqlEffect.dml i q (sliceSize total bs i)) with
    | some msg =>
      simp [progressValues, eventProgress]
    | none =>
      simp only []
      obtain ⟨ihc, ihb⟩ := ih (i + 1) (rp + sliceSize total bs i) rf
      have hmono : progressPctFloat rp total ≤
          progressPctFloat (rp + sliceSize total bs i) total :=
        progressPctFloat_mono total htot (Nat.le_add_right _ _)
      constructor
      · rw [progressValues, List.filterMap_cons, List.filterMap_cons]
        simp only [eventProgress]
        rw [List.chain'_cons']
        exact ⟨fun y hy => ihb y (List.mem_of_mem_head? hy), ihc⟩
      · intro p hp
        rw [progressValues, List.filterMap_cons, List.filterMap_cons] at hp
        simp only [eventProgress] at hp
        rcases List.mem_cons.mp hp with h | h
        · subst h
          exact hmono
        · exact le_trans hmono (ihb p h)

/-- Helper: every persisted percentage stays at most 100, given the entry
counter respects the slice bounds. -/
theorem writeSlicesAux_progress_le (q : DmlQuery) (oracle : SqlOracle)
    (total bs : Nat) :
    ∀ n i rp rf, rp ≤ i * bs → rp ≤ total →
      ∀ p ∈ progressValues (writeSlicesAux q oracle total bs n i rp rf).1,
        p ≤ 100 := by
  intro n
  induction n with
  | zero =>
    intro i rp rf _ _ p hp
    exact absurd hp (List.not_mem_nil p)
  | succ n ih =>
    intro i rp rf hbnd htot p hp
    unfold writeSlicesAux at hp
    simp only [] at hp
    cases hf : oracle.sqlFail (SqlEffect.dml i q (sliceSize total bs i)) with
    | some msg =>
      rw [hf] at hp
      simp [progressValues, eventProgress] at hp
    | none =>
      rw [hf] at hp
      simp only [] at hp
      have h1 : min (i * bs + bs) total ≤ i * bs + bs := Nat.min_le_left _ _
      have h2 : min (i * bs + bs) total ≤ total := Nat.min_le_right _ _
      have hsz : sliceSize total bs i = min (i * bs + bs) total - i * bs := rfl
      have hb1 : rp + sliceSize total bs i ≤ (i + 1) * bs := by
        rw [Nat.succ_mul]
        omega
      have hb2 : rp + sliceSize total bs i ≤ total := by
        omega
      rw [progressValues, List.filterMap_cons, List.filterMap_cons] at hp
      simp only [eventProgress] at hp
      rcases List.mem_cons.mp hp with h | h
      · subst h
        exact progressPctFloat_le_100 _ _ hb2
      · exact ih (i + 1) _ rf hb1 hb2 p h

/-- Helper: in the slice loop, a batch DML is only ever submitted at the
start of the trace or immediately after a persisted progress update
carrying `rows_processed` and `progress_percentage`. -/
theorem writeSlicesAux_upd_chain (q : DmlQuery) (oracle : SqlOracle)
    (total bs : Nat) :
    ∀ n i rp rf,
      List.Chain' updBeforeNextSlice
        (writeSlicesAux q oracle total bs n i rp rf).1 := by
  intro n
  induction n with
  | zero =>
    intro i rp rf
    exact List.chain'_nil
  | succ n ih =>
    intro i rp rf
    unfold writeSlicesAux
    simp only []
    cases hf : oracle.sqlFail (SqlEffect.dml i q (sliceSize total bs i)) with
    | some msg =>
      refine List.Chain'.cons ?_ (List.chain'_singleton _)
      intro h
      obtain ⟨i2, q2, n2, heq⟩ := h
      cases heq
    | none =>
      simp only []
      refine List.Chain'.cons ?_ ?_
      · intro h
        obtain ⟨i2, q2, n2, heq⟩ := h
        cases heq
      · rw [List.chain'_cons']
        refine ⟨?_, ih (i + 1) _ rf⟩
        intro y _
        intro _
        exact ⟨_, rfl, rfl, rfl⟩

/-- Helper: every persisted update of the slice loop that carries a
percentage carries the cumulative row count, and the percentage is exactly
the binary64 formula `int((rows_processed / total_rows) * 100)` applied
to it. -/
theorem writeSlicesAux_upd_shape (q : DmlQuery) (oracle : SqlOracle)
    (total bs : Nat) :
    ∀ n i rp rf u,
      Event.runUpdate u ∈ (writeSlicesAux q oracle total bs n i rp rf).1 →
      u.progress.isSome = true →
      u.rowsProcessed.isSome = true ∧
      u.progress = some (progressPctFloat (u.rowsProcessed.getD 0) total) := by
  intro n
  induction n with
  | zero =>
    intro i rp rf u hu _
    exact absurd hu (List.not_mem_nil _)
  | succ n ih =>
    intro i rp rf u hu hps
    unfold writeSlicesAux at hu
    simp only [] at hu
    cases hf : oracle.sqlFail (SqlEffect.dml i q (sliceSize total bs i)) with
    | some msg =>
      rw [hf] at hu
      simp only [List.mem_cons, List.not_mem_nil, or_false] at hu
      rcases hu with h | h
      · cases h
      · obtain rfl := Event.runUpdate.inj h
        cases hps
    | none =>
      rw [hf] at hu
      simp only [List.mem_cons] at hu
      rcases hu with h | h | h
      · cases h
      · obtain rfl := Event.runUpdate.inj h
        exact ⟨rfl, rfl⟩
      · exact ih (i + 1) _ rf u h hps

/-- Helper: appending a non-empty list moves `getLast?` to it. -/
theorem getLast?_append_right {α : Type} (l1 l2 : List α) (h : l2 ≠ []) :
    (l1 ++ l2).getLast? = l2.getLast? := by
  induction l1 with
  | nil => rfl
  | cons a r ihr =>
    rw [List.cons_append, getLast?_cons_of_ne_nil a (r ++ l2), ihr]
    intro h0
    rcases List.append_eq_nil.mp h0 with ⟨-, h2⟩
    exact h h2

/-- Helper: a successful `execute_job` run ends its persisted trace with
the COMPLETED update carrying `progress_percentage = 100`. -/
theorem executeJob_success_last (jobRunFound jobFound : Bool) (job : ETLJobM)
    (readOutcome : Except String DataFrame) (snap : DestSnapshot)
    (oracle : SqlOracle) (now : Value) (evts : List Event)
    (h : executeJob jobRunFound jobFound job readOutcome snap oracle now =
      (evts, none)) :
    evts.getLast? = some (Event.runUpdate
      { status := some .completed, progress := some 100
      , message := some "Job completed successfully" }) := by
  unfold executeJob at h
  cases jobRunFound with
  | false => simp at h
  | true =>
  cases jobFound with
  | false => simp at h
  | true =>
  rw [if_neg (by simp), if_neg (by simp)] at h
  cases readOutcome with
  | error msg => simp at h
  | ok df =>
  simp only [] at h
  rcases htr : applyTransformationsM now df job.columnMappings with te | dfw
  · rw [htr] at h
    simp at h
  · rw [htr] at h
    try simp only [] at h
    by_cases hdt : job.destinationType = "postgresql" ∨
        job.destinationType = "redshift"
    · rw [if_pos hdt] at h
      try simp only [] at h
      rcases hw : (writeToPostgresql dfw.1 job snap oracle now).2 with - | e
      · rw [hw] at h
        try simp only [] at h
        rw [Prod.mk.injEq] at h
        obtain ⟨h1, -⟩ := h
        subst h1
        rw [getLast?_append_right _ _ (by simp)]
        rfl
      · rw [hw] at h
        simp at h
    · rw [if_neg hdt] at h
      simp at h

/-- C6 counterexample: with 100 rows and batch size 29
(etl_service.py line 900), the update persisted after the first slice
carries `rows_processed = 29` but `progress_percentage = 28`, while the
claimed formula `floor(rowsProcessed / rowsTotal * 100)` gives 29: the
double nearest `29/100` lies below `0.29` and the binary64 product
`0.29 * 100` rounds to `28.999999999999996`, which `int()` truncates to
28.  The persisted percentages of the run are `[28, 57, 87, 100]`, so no
update of the run carries the claimed value 29. -/
theorem c6_counterexample :
    Event.runUpdate
      { rowsProcessed := some 29, progress := some 28
      , message := some "Processed 29/100 rows" } ∈
      (writeSlices (DmlQuery.insert ["id"]) okOracle 100 29).1 ∧
    progressValues (writeSlices (DmlQuery.insert ["id"]) okOracle 100 29).1 =
      [28, 57, 87, 100] ∧
    progressPct 29 100 = 29 ∧
    (28 : Nat) ≠ progressPct 29 100 := by
  refine ⟨by decide, by decide, by decide, by decide⟩

/-- C6 (amended): along the slice loop (etl_service.py lines 897-907)
every persisted update carrying a percentage also carries the cumulative
`rows_processed` and satisfies
`progress_percentage = int((rows_processed / total_rows) * 100)` evaluated
in binary64 float arithmetic — which can fall below the exact floor
`floor(rows_processed * 100 / rows_total)` of the original claim (28
versus 29 at 29 of 100 rows, see the counterexample); the persisted
percentages are monotonically non-decreasing and bounded by 100; a batch
DML is only ever submitted at the start of the loop or immediately after
the previous slice's update has been persisted; and a run that completes
ends its persisted trace with the COMPLETED update forcing the percentage
to exactly 100. -/
theorem c6_progress_tracking :
    (∀ (q : DmlQuery) (oracle : SqlOracle) (total bs : Nat),
      List.Chain' (· ≤ ·)
        (progressValues (writeSlices q oracle total bs).1)) ∧
    (∀ (q : DmlQuery) (oracle : SqlOracle) (total bs : Nat) (p : Nat),
      p ∈ progressValues (writeSlices q oracle total bs).1 → p ≤ 100) ∧
    (∀ (q : DmlQuery) (oracle : SqlOracle) (total bs : Nat),
      List.Chain' updBeforeNextSlice (writeSlices q oracle total bs).1) ∧
    (∀ (q : DmlQuery) (oracle : SqlOracle) (total bs : Nat) (u : RunFields),
      Event.runUpdate u ∈ (writeSlices q oracle total bs).1 →
      u.progress.isSome = true →
      u.rowsProcessed.isSome = true ∧
      u.progress = some (progressPctFloat (u.rowsProcessed.getD 0) total)) ∧
    (∀ (jobRunFound jobFound : Bool) (job : ETLJobM)
        (readOutcome : Except String DataFrame) (snap : DestSnapshot)
        (oracle : SqlOracle) (now : Value) (evts : List Event),
      executeJob jobRunFound jobFound job readOutcome snap oracle now =
        (evts, none) →
      evts.getLast? = some (Event.runUpdate
        { status := some .completed, progress := some 100
        , message := some "Job completed successfully" })) := by
  refine ⟨?_, ?_, ?_, ?_, executeJob_success_last⟩
  · intro q oracle total bs
    by_cases htot : total = 0
    · subst htot
      have hns : numSlices 0 bs = 0 := by
        unfold numSlices
        cases bs with
        | zero => rfl
        | succ b => exact Nat.div_eq_of_lt (by omega)
      unfold writeSlices
      rw [hns]
      exact List.chain'_nil
    · unfold writeSlices
      exact (writeSlicesAux_progress_chain q oracle total bs htot
        (numSlices total bs) 0 0 0).1
  · intro q oracle total bs p hp
    unfold writeSlices at hp
    exact writeSlicesAux_progress_le q oracle total bs (numSlices total bs)
      0 0 0 (Nat.zero_le _) (Nat.zero_le _) p hp
  · intro q oracle total bs
    unfold writeSlices
    exact writeSlicesAux_upd_chain q oracle total bs (numSlices total bs) 0 0 0
  · intro q oracle total bs u hu hps
    unfold writeSlices at hu
    exact writeSlicesAux_upd_shape q oracle total bs (numSlices total bs)
      0 0 0 u hu hps

/-- Witness for C6: 5 rows in batches of 2 persist the percentages
40, 80, 100 (the binary64 values, monotone and bounded), and the concrete
successful run ends with the COMPLETED update at 100 percent. -/
theorem c6_witness :
    progressValues (writeSlices (DmlQuery.insert ["id"]) okOracle 5 2).1 =
      [40, 80, 100] ∧
    List.Chain' (· ≤ ·)
      (progressValues (writeSlices (DmlQuery.insert ["id"]) okOracle 5 2).1) ∧
    (40 ∈ progressValues
      (writeSlices (DmlQuery.insert ["id"]) okOracle 5 2).1 → (40 : Nat) ≤ 100) ∧
    (executeJob true true c5job (.ok c5df) c5snap okOracle Value.null).1.getLast? =
      some (Event.runUpdate
        { status := some .completed, progress := some 100
        , message := some "Job completed successfully" }) := by
  have h := c6_progress_tracking
  refine ⟨by decide, h.1 (DmlQuery.insert ["id"]) okOracle 5 2,
    fun hm => h.2.1 (DmlQuery.insert ["id"]) okOracle 5 2 40 hm, ?_⟩
  exact h.2.2.2.2 true true c5job (.ok c5df) c5snap okOracle Value.null _
    (by decide)

/-- Helper: the auto-add loop emits only SQL events. -/
theorem autoAddColumns_status_none (oracle : SqlOracle)
    (schName tbl : String) (typeMap : List (String × String)) :
    ∀ order e, e ∈ (autoAddColumns oracle schName tbl typeMap order).1 →
      eventStatus e = none := by
  intro order
  induction order with
  | nil =>
    intro e he
    simp [autoAddColumns] at he
  | cons c rest ih =>
    intro e he
    unfold autoAddColumns at he
    simp only [] at he
    cases hf : oracle.sqlFail
        (SqlEffect.addColumn schName tbl c ((typeMap.lookup c).getD "TEXT")) with
    | none =>
      rw [hf] at he
      simp only [List.mem_cons] at he
      rcases he with he | he
      · subst he
        rfl
      · exact ih e he
    | some msg =>
      rw [hf] at he
      simp only [List.mem_cons, List.not_mem_nil, or_false] at he
      subst he
      rfl

/-- Helper: the create-table phase emits only SQL events. -/
theorem createTablePhase_status_none (oracle : SqlOracle) (job : ETLJobM)
    (schName tbl : String) (snap : DestSnapshot) :
    ∀ e, e ∈ (createTablePhase oracle job schName tbl snap).1 →
      eventStatus e = none := by
  intro e he
  unfold createTablePhase at he
  repeat' split at he
  all_goals simp only [List.mem_cons, List.not_mem_nil, or_false] at he
  all_goals try subst he
  all_goals rfl

/-- Helper: the reconciliation phase emits only SQL events. -/
theorem reconcilePhase_status_none (oracle : SqlOracle) (job : ETLJobM)
    (schName tbl : String) (tableCols : List (String × String))
    (dfColumns : List String) :
    ∀ e, e ∈ (reconcilePhase oracle job schName tbl tableCols dfColumns).1 →
      eventStatus e = none := by
  intro e he
  unfold reconcilePhase at he
  by_cases hts : job.loadStrategy = "truncate_insert"
  · rw [if_pos hts] at he
    by_cases hte : ¬ ((tableCols.map Prod.fst).isEmpty : Bool)
    · rw [if_neg (by simpa using hte)] at he
      by_cases hmm : ¬ (listSetEq (cmpColumns (tableCols.map Prod.fst))
          (cmpColumns dfColumns) : Bool)
      · rw [if_pos (by simpa using hmm)] at he
        simp only [] at he
        cases hf : oracle.sqlFail (SqlEffect.dropTable schName tbl) with
        | some msg =>
          rw [hf] at he
          simp only [List.mem_cons, List.not_mem_nil, or_false] at he
          subst he
          rfl
        | none =>
          rw [hf] at he
          by_cases hddl : (ddlTruthy job : Bool)
          · rw [if_pos hddl] at he
            simp only [List.mem_cons, List.not_mem_nil, or_false] at he
            rcases he with he | he <;> (subst he; rfl)
          · rw [if_neg hddl] at he
            simp only [List.mem_cons, List.not_mem_nil, or_false] at he
            subst he
            rfl
      · rw [if_neg (by simpa using hmm)] at he
        simp only [List.mem_cons, List.not_mem_nil, or_false] at he
        subst he
        rfl
    · rw [if_pos (by simpa using hte)] at he
      by_cases hddl : (ddlTruthy job : Bool)
      · rw [if_pos hddl] at he
        simp only [List.mem_cons, List.not_mem_nil, or_false] at he
        subst he
        rfl
      · rw [if_neg hddl] at he
        simp at he
  · rw [if_neg hts] at he
    by_cases hte : ((tableCols.map Prod.fst).isEmpty : Bool)
    · rw [if_neg (by simpa using hte)] at he
      by_cases hddl : (ddlTruthy job : Bool)
      · rw [if_pos hddl] at he
        simp only [List.mem_cons, List.not_mem_nil, or_false] at he
        subst he
        rfl
      · rw [if_neg hddl] at he
        simp at he
    · rw [if_pos (by simpa using hte)] at he
      by_cases hmm : missingCols (cmpColumns dfColumns)
          (cmpColumns (tableCols.map Prod.fst)) ≠ [] ∨
        extraCols (cmpColumns dfColumns)
          (cmpColumns (tableCols.map Prod.fst)) ≠ []
      · rw [if_pos hmm] at he
        simp only [] at he
        by_cases hadd : missingCols (cmpColumns dfColumns)
            (cmpColumns (tableCols.map Prod.fst)) ≠ [] ∧
          job.loadStrategy = "insert"
        · rw [if_pos hadd] at he
          simp only [] at he
          split at he
          · exact autoAddColumns_status_none oracle schName tbl _ _ e he
          · split at he
            · exact autoAddColumns_status_none oracle schName tbl _ _ e he
            · split at he
              · exact autoAddColumns_status_none oracle schName tbl _ _ e he
              · exact autoAddColumns_status_none oracle schName tbl _ _ e he
        · rw [if_neg hadd] at he
          simp only [] at he
          split at he
          · simp at he
          · split at he
            · simp at he
            · simp at he
      · rw [if_neg hmm] at he
        simp at he

/-- Helper: the constraint phase emits only SQL events. -/
theorem constraintPhase_status_none (oracle : SqlOracle) (job : ETLJobM)
    (schName tbl : String) (snap : DestSnapshot) :
    ∀ e, e ∈ (constraintPhase oracle job schName tbl snap).1 →
      eventStatus e = none := by
  intro e he
  unfold constraintPhase at he
  split at he
  case isFalse => simp at he
  case isTrue h1 =>
    split at he
    case isFalse => simp at he
    case isTrue h2 =>
      simp only [] at he
      split at he
      case isFalse => simp at he
      case isTrue h3 =>
        cases hpk : snap.existingPk with
        | none =>
          rw [hpk] at he
          simp only [List.mem_cons, List.not_mem_nil, or_false] at he
          subst he
          rfl
        | some pkName =>
          rw [hpk] at he
          simp only [] at he
          cases hf : oracle.sqlFail
              (SqlEffect.dropConstraint schName tbl pkName) with
          | some msg =>
            rw [hf] at he
            simp only [List.mem_cons, List.not_mem_nil, or_false] at he
            subst he
            rfl
          | none =>
            rw [hf] at he
            simp only [List.mem_cons, List.not_mem_nil, or_false] at he
            rcases he with he | he <;> (subst he; rfl)

/-- Helper: no persisted update of the slice loop touches the status. -/
theorem writeSlicesAux_status_none (q : DmlQuery) (oracle : SqlOracle)
    (total bs : Nat) :
    ∀ n i rp rf e, e ∈ (writeSlicesAux q oracle total bs n i rp rf).1 →
      eventStatus e = none := by
  intro n
  induction n with
  | zero =>
    intro i rp rf e he
    exact absurd he (List.not_mem_nil e)
  | succ n ih =>
    intro i rp rf e he
    unfold writeSlicesAux at he
    simp only [] at he
    cases hf : oracle.sqlFail (SqlEffect.dml i q (sliceSize total bs i)) with
    | none =>
      rw [hf] at he
      simp only [List.mem_cons] at he
      rcases he with he | he | he
      · subst he
        rfl
      · subst he
        rfl
      · exact ih (i + 1) _ rf e he
    | some msg =>
      rw [hf] at he
      simp only [List.mem_cons, List.not_mem_nil, or_false] at he
      rcases he with he | he
      · subst he
        rfl
      · subst he
        rfl

/-- Helper: no event of the slice loop (final update included) touches the
status field. -/
theorem sliceLoopPhase_status_none (q : DmlQuery) (oracle : SqlOracle)
    (total bs : Nat) :
    ∀ e, e ∈ (sliceLoopPhase q oracle total bs).1 → eventStatus e = none := by
  intro e he
  unfold sliceLoopPhase at he
  simp only [] at he
  cases hw : (writeSlices q oracle total bs).2.2.2 with
  | some err =>
    rw [hw] at he
    simp only [] at he
    unfold writeSlices at he
    exact writeSlicesAux_status_none q oracle total bs _ _ _ _ e he
  | none =>
    rw [hw] at he
    simp only [List.mem_append, List.mem_cons, List.not_mem_nil,
      or_false] at he
    rcases he with he | he
    · unfold writeSlices at he
      exact writeSlicesAux_status_none q oracle total bs _ _ _ _ e he
    · subst he
      rfl

/-- Helper: the destination writer never persists a status change — its
persisted updates only carry counters, percentages and messages. -/
theorem writeToPostgresql_statusUpdates_nil (df : DataFrame) (job : ETLJobM)
    (snap : DestSnapshot) (oracle : SqlOracle) (now : Value) :
    statusUpdates (writeToPostgresql df job snap oracle now).1 = [] := by
  rw [statusUpdates, List.filterMap_eq_nil_iff]
  intro e he
  unfold writeToPostgresql at he
  by_cases h1 : ¬ destConfigOk job.destConfig
  · rw [if_pos h1] at he
    simp at he
  · rw [if_neg h1] at he
    by_cases h2 : ¬ snap.credentialFound
    · rw [if_pos h2] at he
      simp at he
    · rw [if_neg h2] at he
      simp only [] at he
      cases hsch : oracle.sqlFail
          (SqlEffect.createSchema (job.destConfig.schemaOpt.getD "public")) with
      | some msg =>
        rw [hsch] at he
        simp only [List.mem_cons, List.not_mem_nil, or_false] at he
        subst he
        rfl
      | none =>
        rw [hsch] at he
        cases hct : (createTablePhase oracle job
            (job.destConfig.schemaOpt.getD "public")
            (job.destConfig.table.getD "") snap).2 with
        | error err =>
          rw [hct] at he
          simp only [List.mem_cons] at he
          rcases he with he | he
          · subst he
            rfl
          · exact createTablePhase_status_none oracle job _ _ snap e he
        | ok tableCols =>
          rw [hct] at he
          simp only [] at he
          cases hrc : (reconcilePhase oracle job
              (job.destConfig.schemaOpt.getD "public")
              (job.destConfig.table.getD "") tableCols df.columns).2 with
          | error err =>
            rw [hrc] at he
            simp only [List.mem_cons, List.mem_append] at he
            rcases he with (he | he) | he
            · subst he
              rfl
            · exact createTablePhase_status_none oracle job _ _ snap e he
            · exact reconcilePhase_status_none oracle job _ _ _ _ e he
          | ok ex1 =>
            rw [hrc] at he
            simp only [] at he
            cases hcp : (constraintPhase oracle job
                (job.destConfig.schemaOpt.getD "public")
                (job.destConfig.table.getD "") snap).2 with
            | some err =>
              rw [hcp] at he
              simp only [List.mem_cons, List.mem_append] at he
              rcases he with ((he | he) | he) | he
              · subst he
                rfl
              · exact createTablePhase_status_none oracle job _ _ snap e he
              · exact reconcilePhase_status_none oracle job _ _ _ _ e he
              · exact constraintPhase_status_none oracle job _ _ snap e he
            | none =>
              rw [hcp] at he
              simp only [List.mem_cons, List.mem_append] at he
              rcases he with (((he | he) | he) | he) | he
              · subst he
                rfl
              · exact createTablePhase_status_none oracle job _ _ snap e he
              · exact reconcilePhase_status_none oracle job _ _ _ _ e he
              · exact constraintPhase_status_none oracle job _ _ snap e he
              · exact sliceLoopPhase_status_none _ oracle _ _ e he

/-- Helper: trace status projection distributes over concatenation. -/
theorem statusUpdates_append (l1 l2 : List Event) :
    statusUpdates (l1 ++ l2) = statusUpdates l1 ++ statusUpdates l2 := by
  simp [statusUpdates]

/-- C7 counterexample: when the run record exists but the ETL job row does
not (etl_service.py line 59 raises before lines 69-74 mark the run
RUNNING), the run record is driven straight to FAILED by the exception
handler — the only persisted status of the run is FAILED, so the record
reaches a terminal state without ever having been set to RUNNING,
bypassing the pending → running step of the claimed state machine. -/
theorem c7_counterexample :
    statusUpdates (executeJob true false c5job
        (Except.ok c5df) c5snap okOracle Value.null).1 = [RunStatus.failed] ∧
    RunStatus.running ∉ statusUpdates (executeJob true false c5job
        (Except.ok c5df) c5snap okOracle Value.null).1 := by
  decide

/-- C7 (amended): whenever both the run record and the job definition are
found, the persisted status sequence of the execution is exactly
RUNNING followed by one terminal status — either
`[RUNNING, COMPLETED]` or `[RUNNING, FAILED]` — so the record moves
pending → running → {completed, failed}, never leaves a terminal state,
and no intermediate stage (writer phases included) touches the status.
When the run record itself is missing no status is ever persisted; but
when the job definition is missing the record jumps pending → FAILED
directly, without the RUNNING step (the flaw exhibited by the
counterexample). -/
theorem c7_status_machine (jf : Bool) (job : ETLJobM)
    (readOutcome : Except String DataFrame) (snap : DestSnapshot)
    (oracle : SqlOracle) (now : Value) :
    (statusUpdates (executeJob true true job readOutcome snap oracle now).1 =
        [RunStatus.running, RunStatus.completed] ∨
      statusUpdates (executeJob true true job readOutcome snap oracle now).1 =
        [RunStatus.running, RunStatus.failed]) ∧
    statusUpdates (executeJob false jf job readOutcome snap oracle now).1 =
      [] ∧
    statusUpdates (executeJob true false job readOutcome snap oracle now).1 =
      [RunStatus.failed] := by
  refine ⟨?_, rfl, rfl⟩
  unfold executeJob
  rw [if_neg (by simp), if_neg (by simp)]
  cases readOutcome with
  | error msg => right; rfl
  | ok df =>
    simp only []
    rcases htr : applyTransformationsM now df job.columnMappings with te | dfw
    · right
      rfl
    · simp only []
      by_cases hdt : job.destinationType = "postgresql" ∨
          job.destinationType = "redshift"
      · rw [if_pos hdt]
        try simp only []
        rcases hw : (writeToPostgresql dfw.1 job snap oracle now).2 with - | e
        · left
          try simp only []
          rw [statusUpdates_append, statusUpdates_append,
            writeToPostgresql_statusUpdates_nil]
          rfl
        · right
          try simp only []
          rw [statusUpdates_append, statusUpdates_append,
            writeToPostgresql_statusUpdates_nil]
          rfl
      · rw [if_neg hdt]
        right
        rfl

/-- Witness for C7: the amended status machine evaluated on the concrete
insert fixture — running followed by a terminal status when both records
exist, no status write when the run record is missing, and the direct
FAILED write when the job definition is missing. -/
theorem c7_witness :
    (statusUpdates (executeJob true true c5job (Except.ok c5df) c5snap
        okOracle Value.null).1 = [RunStatus.running, RunStatus.completed] ∨
      statusUpdates (executeJob true true c5job (Except.ok c5df) c5snap
        okOracle Value.null).1 = [RunStatus.running, RunStatus.failed]) ∧
    statusUpdates (executeJob false true c5job (Except.ok c5df) c5snap
        okOracle Value.null).1 = [] ∧
    statusUpdates (executeJob true false c5job (Except.ok c5df) c5snap
        okOracle Value.null).1 = [RunStatus.failed] :=
  c7_status_machine true c5job (Except.ok c5df) c5snap okOracle Value.null
